import Mathlib

/-!
Verification of the display-list recording engine (hwui `RecordingCanvas` /
`DisplayList`).  The recorder implementation itself is not present in the
repository snapshot (only its unit tests, `RecordingCanvasTests.cpp`, are), so
the recorder below is modelled from the specification, with the unit tests
taken as the authority on observable behavior wherever they speak.

Coordinates are modelled as rationals; machine floats are not needed for any
of the claims (all test geometry is exact).  `rotate` is modelled as taking the
cosine/sine pair of the rotation angle (the C++ computes these with libm before
building the matrix); concrete scenarios instantiate it with exact rational
unit vectors such as (3/5, 4/5).
-/

namespace HwuiRec

/-- Axis-aligned rectangle, `(left, top, right, bottom)`, rational coordinates,
mirroring hwui `Rect`. -/
structure RectQ where
  left : ℚ
  top : ℚ
  right : ℚ
  bottom : ℚ
deriving DecidableEq, Repr

/-- Componentwise intersection of two rectangles (hwui `Rect::doIntersect`):
max of lefts/tops, min of rights/bottoms. -/
def RectQ.intersect (a b : RectQ) : RectQ :=
  ⟨max a.left b.left, max a.top b.top, min a.right b.right, min a.bottom b.bottom⟩

/-- Translation of a rectangle by `(dx, dy)` (hwui `Rect::translate`). -/
def RectQ.translated (r : RectQ) (dx dy : ℚ) : RectQ :=
  ⟨r.left + dx, r.top + dy, r.right + dx, r.bottom + dy⟩

/-- A rectangle is ordered when left ≤ right and top ≤ bottom (non-empty in the
weak sense). -/
def RectQ.ordered (r : RectQ) : Prop := r.left ≤ r.right ∧ r.top ≤ r.bottom

instance (r : RectQ) : Decidable r.ordered := by
  unfold RectQ.ordered; infer_instance

/-- 2D affine transform, row-major:
`x' = a*x + b*y + tx`, `y' = c*x + d*y + ty`.  Corresponds to the 2D affine
part of hwui `Matrix4` (all tested transforms are 2D affine). -/
structure Mat where
  a : ℚ
  b : ℚ
  tx : ℚ
  c : ℚ
  d : ℚ
  ty : ℚ
deriving DecidableEq, Repr

/-- Identity transform (`Matrix4::loadIdentity`). -/
def Mat.identity : Mat := ⟨1, 0, 0, 0, 1, 0⟩

/-- Pure translation (`Matrix4::loadTranslate`). -/
def Mat.loadTranslate (dx dy : ℚ) : Mat := ⟨1, 0, dx, 0, 1, dy⟩

/-- Rotation matrix from a cosine/sine pair (`Matrix4::loadRotate` after libm
has evaluated the angle). -/
def Mat.rotCS (co si : ℚ) : Mat := ⟨co, -si, 0, si, co, 0⟩

/-- Composition: `(m.mul n)` first applies `n`, then `m` — matrix product. -/
def Mat.mul (m n : Mat) : Mat :=
  ⟨m.a * n.a + m.b * n.c,
   m.a * n.b + m.b * n.d,
   m.a * n.tx + m.b * n.ty + m.tx,
   m.c * n.a + m.d * n.c,
   m.c * n.b + m.d * n.d,
   m.c * n.tx + m.d * n.ty + m.ty⟩

/-- Image of a point's x-coordinate. -/
def Mat.applyX (m : Mat) (x y : ℚ) : ℚ := m.a * x + m.b * y + m.tx

/-- Image of a point's y-coordinate. -/
def Mat.applyY (m : Mat) (x y : ℚ) : ℚ := m.c * x + m.d * y + m.ty

/-- Minimum of four values. -/
def min4 (x1 x2 x3 x4 : ℚ) : ℚ := min (min (min x1 x2) x3) x4

/-- Maximum of four values. -/
def max4 (x1 x2 x3 x4 : ℚ) : ℚ := max (max (max x1 x2) x3) x4

/-- Axis-aligned bounding box of the images of the four corners of a rectangle
(`Matrix4::mapRect`). -/
def Mat.mapRect (m : Mat) (r : RectQ) : RectQ :=
  ⟨min4 (m.applyX r.left r.top) (m.applyX r.right r.top)
        (m.applyX r.left r.bottom) (m.applyX r.right r.bottom),
   min4 (m.applyY r.left r.top) (m.applyY r.right r.top)
        (m.applyY r.left r.bottom) (m.applyY r.right r.bottom),
   max4 (m.applyX r.left r.top) (m.applyX r.right r.top)
        (m.applyX r.left r.bottom) (m.applyX r.right r.bottom),
   max4 (m.applyY r.left r.top) (m.applyY r.right r.top)
        (m.applyY r.left r.bottom) (m.applyY r.right r.bottom)⟩

/-- Determinant of the linear part. -/
def Mat.det (m : Mat) : ℚ := m.a * m.d - m.b * m.c

/-- Affine inverse (`Matrix4::loadInverse`); meaningful when `det ≠ 0`, which
holds for every transform the recorder scenarios build. -/
def Mat.inverse (m : Mat) : Mat :=
  let dt := m.det
  ⟨m.d / dt, -m.b / dt, (m.b * m.ty - m.d * m.tx) / dt,
   -m.c / dt, m.a / dt, (m.c * m.tx - m.a * m.ty) / dt⟩

/-- Clip shape discriminant (hwui `ClipMode`): the tests distinguish simple
rectangle clips from general region clips. -/
inductive ClipMode where
  | rectangle : ClipMode
  | region : ClipMode
deriving DecidableEq, Repr

/-- Shared immutable clip object.  `id` models C++ object identity (each
allocation gets a fresh id); ops referencing the same id reference the same
shared object. -/
structure ClipObj where
  id : ℕ
  mode : ClipMode
  rect : RectQ
deriving DecidableEq, Repr

/-- Observable content of a style descriptor (`SkPaint`): enough structure for
content-equality dedup; `strokeWidth` is carried to express that recorded
bounds never depend on it. -/
structure PaintQ where
  color : ℤ
  strokeWidth : ℚ
deriving DecidableEq, Repr

/-- Immutable captured copy of a style descriptor, owned by the recorder.
`id` models C++ object identity of the copy. -/
structure CapturedPaint where
  id : ℕ
  content : PaintQ
deriving DecidableEq, Repr

/-- Render node, reduced to the two projection-receiver flags the recorder can
observe: the staging (pending) value and the committed (synced) value. -/
structure RNode where
  stagedProjectionReceiver : Bool
  committedProjectionReceiver : Bool
deriving DecidableEq, Repr

/-- Discriminant tags of recorded ops (`RecordedOpId`), restricted to the ops
the claims exercise. -/
inductive OpId where
  | RectOp
  | LinesOp
  | BeginLayerOp
  | EndLayerOp
  | BeginUnclippedLayerOp
  | EndUnclippedLayerOp
  | RenderNodeOp
deriving DecidableEq, Repr

/-- One recorded op (`RecordedOp`), flattened: variant-specific payloads
(`floats` for LinesOp, `node` for RenderNodeOp) are empty/none elsewhere. -/
structure ROp where
  opId : OpId
  unmappedBounds : RectQ
  localMatrix : Mat
  localClip : Option ClipObj
  paint : Option CapturedPaint
  floats : List ℚ
  node : Option RNode
deriving DecidableEq, Repr

/-- Number of floats stored by a LinesOp (`LinesOp::floatCount`). -/
def ROp.floatCount (op : ROp) : ℕ := op.floats.length

/-- Default op, used with `List.getD` when indexing op sequences. -/
def dOp : ROp :=
  ⟨.RectOp, ⟨0, 0, 0, 0⟩, Mat.identity, none, none, [], none⟩

/-- One chunk of the finished display list (`DisplayList::Chunk`). -/
structure Chunk where
  beginOpIndex : ℕ
  endOpIndex : ℕ
  reorderChildren : Bool
deriving DecidableEq, Repr

/-- What a save-stack frame restores when popped. -/
inductive FrameKind where
  | plain
  | clippedLayer
  | unclippedLayer
deriving DecidableEq, Repr

/-- Save-stack frame: snapshot of transform and clip, restore flags from the
save call, and whether popping must emit an End layer op. -/
structure Frame where
  transform : Mat
  clip : Option ClipObj
  restoreMatrix : Bool
  restoreClip : Bool
  kind : FrameKind
deriving DecidableEq, Repr

/-- Clip combination mode (`SkRegion::Op`, restricted to the two the tests
use). -/
inductive ClipOp where
  | intersect
  | replace
deriving DecidableEq, Repr

/-- Recording commands: the public `RecordingCanvas` calls the claims
exercise. -/
inductive Cmd where
  | save (m c : Bool)
  | restore
  | translate (dx dy : ℚ)
  | rotate (co si : ℚ)
  | clipRectCmd (r : RectQ) (cop : ClipOp)
  | drawRect (r : RectQ) (p : PaintQ)
  | drawLines (pts : List ℚ) (p : PaintQ)
  | drawRenderNode (n : RNode)
  | saveLayerAlpha (r : RectQ) (alpha : ℕ) (clipToLayer : Bool)
  | insertReorderBarrier (b : Bool)

/-- Recorder state during one recording pass. -/
structure RState where
  width : ℚ
  height : ℚ
  transform : Mat
  clip : Option ClipObj
  nextClipId : ℕ
  paintCache : Option (PaintQ × ℕ)
  nextPaintId : ℕ
  saveStack : List Frame
  ops : List ROp
  chunks : List Chunk
  curBegin : ℕ
  curReorder : Bool
  pendingBarrier : Bool
  projectionReceiveIndex : ℤ
deriving DecidableEq, Repr

/-- The finished, immutable display list. -/
structure DisplayList where
  ops : List ROp
  chunks : List Chunk
  projectionReceiveIndex : ℤ
  width : ℚ
  height : ℚ
deriving DecidableEq, Repr

/-- Declared canvas extent as a rectangle. -/
def RState.viewport (s : RState) : RectQ := ⟨0, 0, s.width, s.height⟩

/-- Fresh recorder bound to a declared width/height. -/
def RState.init (w h : ℚ) : RState :=
  { width := w, height := h, transform := Mat.identity, clip := none,
    nextClipId := 0, paintCache := none, nextPaintId := 0, saveStack := [],
    ops := [], chunks := [], curBegin := 0, curReorder := false,
    pendingBarrier := false, projectionReceiveIndex := -1 }

/-- Modelled from the spec: append one op, maintaining chunk metadata.  The
first op ever opens the first chunk; afterwards a new chunk begins exactly
when the pending reorder-barrier boolean differs from the open chunk's
reorder flag (spec 4.6: split only on effective state change). -/
def addOp (s : RState) (op : ROp) : RState :=
  if s.ops.isEmpty then
    { s with ops := [op], curBegin := 0, curReorder := s.pendingBarrier }
  else if s.pendingBarrier = s.curReorder then
    { s with ops := s.ops ++ [op] }
  else
    { s with
      chunks := s.chunks ++ [⟨s.curBegin, s.ops.length, s.curReorder⟩],
      curBegin := s.ops.length, curReorder := s.pendingBarrier,
      ops := s.ops ++ [op] }

/-- Modelled from the spec (4.3, Style Cache): capture the style descriptor
seen by a draw call.  If the observable content equals the last captured
content, the previously captured immutable copy is reused; otherwise a fresh
immutable copy (fresh id) is captured and becomes the cached one. -/
def refPaint (s : RState) (p : PaintQ) : CapturedPaint × RState :=
  match s.paintCache with
  | some (c, i) =>
    if c = p then (⟨i, c⟩, s)
    else (⟨s.nextPaintId, p⟩,
          { s with paintCache := some (p, s.nextPaintId),
                   nextPaintId := s.nextPaintId + 1 })
  | none =>
    (⟨s.nextPaintId, p⟩,
     { s with paintCache := some (p, s.nextPaintId),
              nextPaintId := s.nextPaintId + 1 })

/-- Modelled from the spec (4.1, 4.5): pop the most recent save frame.  A
layer frame emits its matching End op (through `addOp`); the frame's
transform/clip are restored according to its restore flags.  At the stack
floor this is a no-op (excess restores are clamped). -/
def restoreStep (s : RState) : RState :=
  match s.saveStack with
  | [] => s
  | f :: rest =>
    let s1 :=
      match f.kind with
      | .plain => s
      | .clippedLayer =>
        addOp s ⟨.EndLayerOp, ⟨0, 0, 0, 0⟩, s.transform, s.clip, none, [], none⟩
      | .unclippedLayer =>
        addOp s ⟨.EndUnclippedLayerOp, ⟨0, 0, 0, 0⟩, s.transform, s.clip, none, [], none⟩
    { s1 with
      transform := if f.restoreMatrix then f.transform else s1.transform,
      clip := if f.restoreClip then f.clip else s1.clip,
      saveStack := rest }

/-- Modelled from the spec (4.2, Clip Tracker): combine the current clip with
a transformed rectangle.  If the result equals the current shape the same
shared object is kept; otherwise a fresh immutable object is allocated.  A
`none` clip stands for the full canvas bounds, so an intersect starts from
the viewport. -/
def execClipRect (s : RState) (r : RectQ) (cop : ClipOp) : RState :=
  let mapped := s.transform.mapRect r
  let newShape :=
    match cop with
    | .intersect => (match s.clip with
                     | some c => c.rect
                     | none => s.viewport).intersect mapped
    | .replace => mapped
  match s.clip with
  | some c =>
    if c.rect = newShape then s
    else { s with clip := some ⟨s.nextClipId, .rectangle, newShape⟩,
                  nextClipId := s.nextClipId + 1 }
  | none =>
    { s with clip := some ⟨s.nextClipId, .rectangle, newShape⟩,
             nextClipId := s.nextClipId + 1 }

/-- Modelled from the spec (4.5, layer scopes), with the tests as authority on
observables: a clip-to-layer (or clip-forced) `saveLayerAlpha` emits
`BeginLayerOp` carrying the requested bounds, identity matrix and no clip,
pushes a layer frame, moves the child coordinate space to the layer origin,
and installs as child clip the requested bounds cropped by the ambient
effective clip (current clip and viewport), mapped to layer-local space.
The child clip is recorded as a simple rectangle object
(`RecordingCanvasTests.saveLayer_rotateClipped` asserts
`ClipMode::Rectangle`).  Without a forced clip it emits
`BeginUnclippedLayerOp` and leaves the child transform/clip untouched. -/
def execSaveLayer (s : RState) (r : RectQ) (clipToLayer : Bool) : RState :=
  if clipToLayer || s.clip.isSome then
    let s1 := addOp s ⟨.BeginLayerOp, r, Mat.identity, none, none, [], none⟩
    let ambient :=
      match s.clip with
      | some c => s.viewport.intersect c.rect
      | none => s.viewport
    let canvasCrop := (s.transform.mapRect r).intersect ambient
    let layerCrop := (s.transform.inverse.mapRect canvasCrop).intersect r
    let childClip := layerCrop.translated (-r.left) (-r.top)
    { s1 with
      saveStack := ⟨s.transform, s.clip, true, true, .clippedLayer⟩ :: s1.saveStack,
      transform := Mat.loadTranslate (-r.left) (-r.top),
      clip := some ⟨s1.nextClipId, .rectangle, childClip⟩,
      nextClipId := s1.nextClipId + 1 }
  else
    let s1 := addOp s ⟨.BeginUnclippedLayerOp, r, Mat.identity, none, none, [], none⟩
    { s1 with
      saveStack := ⟨s.transform, s.clip, true, true, .unclippedLayer⟩ :: s1.saveStack }

/-- Split a flat coordinate buffer into (x, y) pairs. -/
def pairsOf : List ℚ → List (ℚ × ℚ)
  | x :: y :: rest => (x, y) :: pairsOf rest
  | _ => []

/-- Grow a rectangle to contain a point (hwui `Rect::expandToCover`). -/
def RectQ.unionPoint (r : RectQ) (p : ℚ × ℚ) : RectQ :=
  ⟨min r.left p.1, min r.top p.2, max r.right p.1, max r.bottom p.2⟩

/-- Modelled from the spec: bounds of a point run, as the C++ computes it —
seed a degenerate rect at the first point, then expand over the rest
(`calcBoundsOfPoints`).  Empty input yields the degenerate origin rect. -/
def calcBoundsOfPoints (ps : List (ℚ × ℚ)) : RectQ :=
  match ps with
  | [] => ⟨0, 0, 0, 0⟩
  | p :: rest => rest.foldl RectQ.unionPoint ⟨p.1, p.2, p.1, p.2⟩

/-- Modelled from the spec (4.4, draw call resolution): `drawLines` truncates
the float count down to the nearest multiple of 4 and records one LinesOp
whose `unmappedBounds` covers only the consumed coordinate pairs (never
outset for stroke width). -/
def execDrawLines (s : RState) (pts : List ℚ) (p : PaintQ) : RState :=
  let consumed := pts.take (pts.length / 4 * 4)
  let s1 := (refPaint s p).2
  addOp s1 ⟨.LinesOp, calcBoundsOfPoints (pairsOf consumed), s1.transform,
            s1.clip, some (refPaint s p).1, consumed, none⟩

/-- Modelled from the spec (4.4): `drawRect` records one RectOp whose
`unmappedBounds` is exactly the geometric argument. -/
def execDrawRect (s : RState) (r : RectQ) (p : PaintQ) : RState :=
  let s1 := (refPaint s p).2
  addOp s1 ⟨.RectOp, r, s1.transform, s1.clip, some (refPaint s p).1, [], none⟩

/-- Modelled from the spec (4.4) with the tests as authority: `drawRenderNode`
records a RenderNodeRef op; if the node's *staging* projection-receiver flag
is set (the test asserts detection works while the committed flag is still
false) and no earlier op claimed the role, `projectionReceiveIndex` is set to
this op's index. -/
def execDrawRenderNode (s : RState) (n : RNode) : RState :=
  let idx := s.ops.length
  let s1 := addOp s ⟨.RenderNodeOp, ⟨0, 0, 0, 0⟩, s.transform, s.clip, none, [], some n⟩
  if n.stagedProjectionReceiver ∧ s1.projectionReceiveIndex = -1 then
    { s1 with projectionReceiveIndex := (idx : ℤ) }
  else s1

/-- One step of the recorder: dispatch a command (spec 4.1–4.6). -/
def exec (s : RState) : Cmd → RState
  | .save m c =>
    { s with saveStack := ⟨s.transform, s.clip, m, c, .plain⟩ :: s.saveStack }
  | .restore => restoreStep s
  | .translate dx dy =>
    { s with transform := s.transform.mul (Mat.loadTranslate dx dy) }
  | .rotate co si =>
    { s with transform := s.transform.mul (Mat.rotCS co si) }
  | .clipRectCmd r cop => execClipRect s r cop
  | .drawRect r p => execDrawRect s r p
  | .drawLines pts p => execDrawLines s pts p
  | .drawRenderNode n => execDrawRenderNode s n
  | .saveLayerAlpha r _alpha ctl => execSaveLayer s r ctl
  | .insertReorderBarrier b => { s with pendingBarrier := b }

/-- Close the still-open chunk at finalize time. -/
def closeChunk (s : RState) : RState :=
  if s.ops.isEmpty then s
  else { s with chunks := s.chunks ++ [⟨s.curBegin, s.ops.length, s.curReorder⟩] }

/-- Modelled from the spec (4.1): finalize closes every unmatched save scope
as if `restore()` had been called, closes the open chunk, and freezes the
result. -/
def finalize (s : RState) : DisplayList :=
  let s1 := restoreStep^[s.saveStack.length] s
  let s2 := closeChunk s1
  ⟨s2.ops, s2.chunks, s2.projectionReceiveIndex, s2.width, s2.height⟩

/-- One whole recording pass: run the commands on a fresh recorder and
finalize. -/
def run (w h : ℚ) (cmds : List Cmd) : DisplayList :=
  finalize (cmds.foldl exec (RState.init w h))

/-! ### Basic shape lemmas about the recorder step functions -/

theorem addOp_ops (s : RState) (op : ROp) : (addOp s op).ops = s.ops ++ [op] := by
  unfold addOp
  split
  · next h => simp [List.isEmpty_iff.mp h]
  · split <;> rfl

theorem addOp_saveStack (s : RState) (op : ROp) :
    (addOp s op).saveStack = s.saveStack := by
  unfold addOp; split
  · rfl
  · split <;> rfl

theorem addOp_transform (s : RState) (op : ROp) :
    (addOp s op).transform = s.transform := by
  unfold addOp; split
  · rfl
  · split <;> rfl

theorem addOp_clip (s : RState) (op : ROp) : (addOp s op).clip = s.clip := by
  unfold addOp; split
  · rfl
  · split <;> rfl

theorem addOp_nextClipId (s : RState) (op : ROp) :
    (addOp s op).nextClipId = s.nextClipId := by
  unfold addOp; split
  · rfl
  · split <;> rfl

theorem addOp_paintCache (s : RState) (op : ROp) :
    (addOp s op).paintCache = s.paintCache := by
  unfold addOp; split
  · rfl
  · split <;> rfl

theorem addOp_nextPaintId (s : RState) (op : ROp) :
    (addOp s op).nextPaintId = s.nextPaintId := by
  unfold addOp; split
  · rfl
  · split <;> rfl

theorem addOp_pendingBarrier (s : RState) (op : ROp) :
    (addOp s op).pendingBarrier = s.pendingBarrier := by
  unfold addOp; split
  · rfl
  · split <;> rfl

theorem addOp_projectionReceiveIndex (s : RState) (op : ROp) :
    (addOp s op).projectionReceiveIndex = s.projectionReceiveIndex := by
  unfold addOp; split
  · rfl
  · split <;> rfl

theorem addOp_width (s : RState) (op : ROp) : (addOp s op).width = s.width := by
  unfold addOp; split
  · rfl
  · split <;> rfl

theorem addOp_height (s : RState) (op : ROp) : (addOp s op).height = s.height := by
  unfold addOp; split
  · rfl
  · split <;> rfl

theorem refPaint_transform (s : RState) (p : PaintQ) :
    (refPaint s p).2.transform = s.transform := by
  unfold refPaint; repeat' split
  all_goals rfl

theorem refPaint_clip (s : RState) (p : PaintQ) :
    (refPaint s p).2.clip = s.clip := by
  unfold refPaint; repeat' split
  all_goals rfl

theorem refPaint_saveStack (s : RState) (p : PaintQ) :
    (refPaint s p).2.saveStack = s.saveStack := by
  unfold refPaint; repeat' split
  all_goals rfl

theorem refPaint_ops (s : RState) (p : PaintQ) :
    (refPaint s p).2.ops = s.ops := by
  unfold refPaint; repeat' split
  all_goals rfl

theorem refPaint_chunks (s : RState) (p : PaintQ) :
    (refPaint s p).2.chunks = s.chunks := by
  unfold refPaint; repeat' split
  all_goals rfl

theorem refPaint_curBegin (s : RState) (p : PaintQ) :
    (refPaint s p).2.curBegin = s.curBegin := by
  unfold refPaint; repeat' split
  all_goals rfl

theorem refPaint_curReorder (s : RState) (p : PaintQ) :
    (refPaint s p).2.curReorder = s.curReorder := by
  unfold refPaint; repeat' split
  all_goals rfl

theorem refPaint_pendingBarrier (s : RState) (p : PaintQ) :
    (refPaint s p).2.pendingBarrier = s.pendingBarrier := by
  unfold refPaint; repeat' split
  all_goals rfl

theorem refPaint_projectionReceiveIndex (s : RState) (p : PaintQ) :
    (refPaint s p).2.projectionReceiveIndex = s.projectionReceiveIndex := by
  unfold refPaint; repeat' split
  all_goals rfl

theorem refPaint_nextClipId (s : RState) (p : PaintQ) :
    (refPaint s p).2.nextClipId = s.nextClipId := by
  unfold refPaint; repeat' split
  all_goals rfl

theorem refPaint_width (s : RState) (p : PaintQ) :
    (refPaint s p).2.width = s.width := by
  unfold refPaint; repeat' split
  all_goals rfl

theorem refPaint_height (s : RState) (p : PaintQ) :
    (refPaint s p).2.height = s.height := by
  unfold refPaint; repeat' split
  all_goals rfl

theorem exec_restore (s : RState) : exec s .restore = restoreStep s := rfl

theorem restoreStep_of_nil (s : RState) (h : s.saveStack = []) :
    restoreStep s = s := by
  unfold restoreStep
  split
  · rfl
  · next f rest heq => rw [h] at heq; cases heq

theorem restoreStep_saveStack (s : RState) :
    (restoreStep s).saveStack = s.saveStack.tail := by
  unfold restoreStep
  split
  · next heq => rw [heq]; rfl
  · next f rest heq => rw [heq]; rfl

/-- Finalization of a state whose top frame has just been popped agrees with
finalization of the original state: the synthesized restores catch up. -/
theorem iterate_restoreStep_restoreStep (s : RState) :
    restoreStep^[(restoreStep s).saveStack.length] (restoreStep s) =
      restoreStep^[s.saveStack.length] s := by
  cases h : s.saveStack with
  | nil => rw [restoreStep_of_nil s h, h]
  | cons f rest =>
    have h1 : (restoreStep s).saveStack = rest := by
      rw [restoreStep_saveStack, h]; rfl
    rw [h1, List.length_cons, Function.iterate_succ_apply]

theorem finalize_restoreStep (s : RState) :
    finalize (restoreStep s) = finalize s := by
  unfold finalize
  rw [iterate_restoreStep_restoreStep]

theorem finalize_iterate_restoreStep (s : RState) (k : ℕ) :
    finalize (restoreStep^[k] s) = finalize s := by
  induction k generalizing s with
  | zero => rfl
  | succ n ih => rw [Function.iterate_succ_apply, ih, finalize_restoreStep]

theorem foldl_exec_replicate_restore (s : RState) (k : ℕ) :
    List.foldl exec s (List.replicate k .restore) = restoreStep^[k] s := by
  induction k generalizing s with
  | zero => rfl
  | succ n ih =>
    rw [List.replicate_succ, List.foldl_cons, Function.iterate_succ_apply]
    exact ih _

example :
    run 100 100 [.drawRect ⟨0, 0, 50, 50⟩ ⟨1, 0⟩] =
      ⟨[⟨.RectOp, ⟨0, 0, 50, 50⟩, Mat.identity, none, some ⟨0, ⟨1, 0⟩⟩, [], none⟩],
       [⟨0, 1, false⟩], -1, 100, 100⟩ := by
  norm_num [run, exec, execDrawRect, refPaint, addOp, RState.init, finalize,
    closeChunk, Mat.identity]

/-! ### Chunk partition invariant -/

/-- `chain pos cs stop`: the chunks `cs` tile the interval `[pos, stop)`
contiguously — each chunk begins where its predecessor ended, with
`beginOpIndex ≤ endOpIndex`. -/
def chain : ℕ → List Chunk → ℕ → Prop
  | pos, [], stop => pos = stop
  | pos, ck :: cs, stop =>
    ck.beginOpIndex = pos ∧ pos ≤ ck.endOpIndex ∧ chain ck.endOpIndex cs stop

theorem chain_append (cs : List Chunk) (p q e : ℕ) (b : Bool)
    (hc : chain p cs q) (hq : q ≤ e) : chain p (cs ++ [⟨q, e, b⟩]) e := by
  induction cs generalizing p with
  | nil =>
    cases hc
    exact ⟨rfl, hq, rfl⟩
  | cons ck rest ih =>
    exact ⟨hc.1, hc.2.1, ih _ hc.2.2⟩

/-- Recording-time shape of the chunk metadata: the closed chunks tile
`[0, curBegin)`, the open chunk (when any op exists) will tile
`[curBegin, ops.length)`, and nothing is open before the first op. -/
def ChunkInv (s : RState) : Prop :=
  chain 0 s.chunks s.curBegin ∧ s.curBegin ≤ s.ops.length ∧
    (s.ops = [] → s.chunks = [] ∧ s.curBegin = 0)

theorem chunkInv_init (w h : ℚ) : ChunkInv (RState.init w h) :=
  ⟨rfl, Nat.le_refl 0, fun _ => ⟨rfl, rfl⟩⟩

theorem chunkInv_addOp (s : RState) (op : ROp) (hs : ChunkInv s) :
    ChunkInv (addOp s op) := by
  obtain ⟨h1, h2, h3⟩ := hs
  unfold addOp
  split
  · next he =>
    obtain ⟨hc, hb⟩ := h3 (List.isEmpty_iff.mp he)
    exact ⟨by rw [hc]; rfl, by simp, by simp⟩
  · split
    · exact ⟨h1, le_trans h2 (by simp), by simp⟩
    · refine ⟨chain_append _ _ _ _ _ h1 h2, by simp, by simp⟩

theorem chunkInv_refPaint (s : RState) (p : PaintQ) (hs : ChunkInv s) :
    ChunkInv (refPaint s p).2 := by
  unfold refPaint
  repeat' split
  all_goals exact hs

theorem chunkInv_restoreStep (s : RState) (hs : ChunkInv s) :
    ChunkInv (restoreStep s) := by
  unfold restoreStep
  split
  · exact hs
  · split
    · exact hs
    · exact chunkInv_addOp _ _ hs
    · exact chunkInv_addOp _ _ hs

theorem chunkInv_exec (s : RState) (c : Cmd) (hs : ChunkInv s) :
    ChunkInv (exec s c) := by
  cases c with
  | save m c => exact hs
  | restore => exact chunkInv_restoreStep s hs
  | translate dx dy => exact hs
  | rotate co si => exact hs
  | clipRectCmd r cop =>
    show ChunkInv (execClipRect s r cop)
    unfold execClipRect
    dsimp only
    repeat' split
    all_goals exact hs
  | drawRect r p => exact chunkInv_addOp _ _ (chunkInv_refPaint s p hs)
  | drawLines pts p => exact chunkInv_addOp _ _ (chunkInv_refPaint s p hs)
  | drawRenderNode n =>
    show ChunkInv (execDrawRenderNode s n)
    unfold execDrawRenderNode
    dsimp only
    split
    · exact chunkInv_addOp _ _ hs
    · exact chunkInv_addOp _ _ hs
  | saveLayerAlpha r alpha ctl =>
    show ChunkInv (execSaveLayer s r ctl)
    unfold execSaveLayer
    split
    · exact chunkInv_addOp _ _ hs
    · exact chunkInv_addOp _ _ hs
  | insertReorderBarrier b => exact hs

theorem chunkInv_foldl (s : RState) (cmds : List Cmd) (hs : ChunkInv s) :
    ChunkInv (cmds.foldl exec s) := by
  induction cmds generalizing s with
  | nil => exact hs
  | cons c rest ih => exact ih _ (chunkInv_exec s c hs)

theorem chunkInv_iterate_restoreStep (s : RState) (k : ℕ) (hs : ChunkInv s) :
    ChunkInv (restoreStep^[k] s) := by
  induction k generalizing s with
  | zero => exact hs
  | succ n ih => rw [Function.iterate_succ_apply]; exact ih _ (chunkInv_restoreStep s hs)

theorem chain_closeChunk (s : RState) (hs : ChunkInv s) :
    chain 0 (closeChunk s).chunks (closeChunk s).ops.length := by
  obtain ⟨h1, h2, h3⟩ := hs
  unfold closeChunk
  split
  · next he =>
    obtain ⟨hc, _⟩ := h3 (List.isEmpty_iff.mp he)
    simp [List.isEmpty_iff.mp he, hc, chain]
  · exact chain_append _ _ _ _ _ h1 h2

theorem chain_finalize (s : RState) (hs : ChunkInv s) :
    chain 0 (finalize s).chunks (finalize s).ops.length :=
  chain_closeChunk _ (chunkInv_iterate_restoreStep s s.saveStack.length hs)

/-! ### Projection receiver tracking -/

/-- An op is a receiver reference when it is a RenderNodeRef op whose node's
staging projection-receiver flag is set. -/
def isReceiverRef (op : ROp) : Bool :=
  decide (op.opId = .RenderNodeOp) &&
    (op.node.map RNode.stagedProjectionReceiver).getD false

theorem isReceiverRef_opId (op : ROp) (h : isReceiverRef op = true) :
    op.opId = .RenderNodeOp := by
  unfold isReceiverRef at h
  simp only [Bool.and_eq_true, decide_eq_true_eq] at h
  exact h.1

/-- Index of the first receiver-reference op, if any (the specification's
"first (in emission order) such op"). -/
def projSpecAux : List ROp → Option ℕ
  | [] => none
  | op :: rest =>
    if isReceiverRef op then some 0 else (projSpecAux rest).map (· + 1)

/-- The specification's required `projectionReceiveIndex`: −1 when no recorded
op references a (staging) projection receiver, else the index of the first
such op in emission order. -/
def projSpec (ops : List ROp) : ℤ :=
  match projSpecAux ops with
  | none => -1
  | some i => (i : ℤ)

theorem projSpecAux_append (l : List ROp) (x : ROp) :
    projSpecAux (l ++ [x]) =
      match projSpecAux l with
      | some i => some i
      | none => if isReceiverRef x then some l.length else none := by
  induction l with
  | nil =>
    cases hrx : isReceiverRef x <;> simp [projSpecAux, hrx]
  | cons op rest ih =>
    show projSpecAux (op :: (rest ++ [x])) = _
    cases hro : isReceiverRef op with
    | true => simp [projSpecAux, hro]
    | false =>
      simp only [projSpecAux, hro, Bool.false_eq_true, if_false, ih]
      cases h : projSpecAux rest with
      | some i => simp [h]
      | none =>
        cases hrx : isReceiverRef x <;> simp [h, hrx]

theorem projSpec_append_not_recv (l : List ROp) (x : ROp)
    (hx : isReceiverRef x = false) : projSpec (l ++ [x]) = projSpec l := by
  unfold projSpec
  rw [projSpecAux_append]
  cases h : projSpecAux l <;> simp [hx]

theorem projSpec_eq_neg_one_iff (l : List ROp) :
    projSpec l = -1 ↔ projSpecAux l = none := by
  unfold projSpec
  cases h : projSpecAux l with
  | none => simp
  | some i => simp

theorem projSpecAux_none_iff (l : List ROp) :
    projSpecAux l = none ↔ ∀ op ∈ l, isReceiverRef op = false := by
  induction l with
  | nil => simp [projSpecAux]
  | cons op rest ih =>
    cases h : isReceiverRef op <;> simp [projSpecAux, h, ih]

theorem projSpecAux_some_spec (l : List ROp) (i : ℕ) (h : projSpecAux l = some i) :
    i < l.length ∧ isReceiverRef (l.getD i dOp) = true ∧
      ∀ j, j < i → isReceiverRef (l.getD j dOp) = false := by
  induction l generalizing i with
  | nil => cases h
  | cons op rest ih =>
    cases hro : isReceiverRef op with
    | true =>
      rw [projSpecAux, if_pos hro] at h
      cases h
      exact ⟨Nat.succ_pos _, by simpa using hro, fun j hj => absurd hj (Nat.not_lt_zero j)⟩
    | false =>
      rw [projSpecAux, if_neg (by simp [hro])] at h
      rw [Option.map_eq_some'] at h
      obtain ⟨i', hi', rfl⟩ := h
      obtain ⟨h1, h2, h3⟩ := ih i' hi'
      refine ⟨by simpa using h1, by simpa using h2, ?_⟩
      intro j hj
      cases j with
      | zero => simpa using hro
      | succ j' => simpa using h3 j' (by omega)

theorem projSpecAux_eq_some_of_first (l : List ROp) (i : ℕ) (hi : i < l.length)
    (hr : isReceiverRef (l.getD i dOp) = true)
    (hf : ∀ j, j < i → isReceiverRef (l.getD j dOp) = false) :
    projSpecAux l = some i := by
  induction l generalizing i with
  | nil => simp at hi
  | cons op rest ih =>
    cases i with
    | zero =>
      rw [projSpecAux, if_pos (by simpa using hr)]
    | succ i' =>
      have hop : isReceiverRef op = false := by simpa using hf 0 (Nat.succ_pos _)
      rw [projSpecAux, if_neg (by simp [hop])]
      rw [ih i' (by simpa using hi) (by simpa using hr)
        (fun j hj => by simpa using hf (j + 1) (by omega))]
      rfl

/-- Recording-time invariant: the tracked `projectionReceiveIndex` always
equals the specification function of the ops recorded so far. -/
def ProjInv (s : RState) : Prop :=
  s.projectionReceiveIndex = projSpec s.ops

theorem projInv_init (w h : ℚ) : ProjInv (RState.init w h) := rfl

theorem projInv_addOp_not_recv (s : RState) (op : ROp)
    (hop : isReceiverRef op = false) (hs : ProjInv s) : ProjInv (addOp s op) := by
  unfold ProjInv
  rw [addOp_projectionReceiveIndex, addOp_ops, projSpec_append_not_recv _ _ hop]
  exact hs

theorem projInv_refPaint (s : RState) (p : PaintQ) (hs : ProjInv s) :
    ProjInv (refPaint s p).2 := by
  unfold refPaint
  repeat' split
  all_goals exact hs

theorem projInv_restoreStep (s : RState) (hs : ProjInv s) :
    ProjInv (restoreStep s) := by
  unfold restoreStep
  split
  · exact hs
  · dsimp only
    split
    · exact hs
    · exact projInv_addOp_not_recv _ _ rfl hs
    · exact projInv_addOp_not_recv _ _ rfl hs

theorem projInv_exec (s : RState) (c : Cmd) (hs : ProjInv s) :
    ProjInv (exec s c) := by
  cases c with
  | save m c => exact hs
  | restore => exact projInv_restoreStep s hs
  | translate dx dy => exact hs
  | rotate co si => exact hs
  | clipRectCmd r cop =>
    show ProjInv (execClipRect s r cop)
    unfold execClipRect
    dsimp only
    repeat' split
    all_goals exact hs
  | drawRect r p =>
    exact projInv_addOp_not_recv _ _ rfl (projInv_refPaint s p hs)
  | drawLines pts p =>
    exact projInv_addOp_not_recv _ _ rfl (projInv_refPaint s p hs)
  | drawRenderNode n =>
    show ProjInv (execDrawRenderNode s n)
    unfold execDrawRenderNode
    dsimp only
    have hrecv : isReceiverRef
        ⟨.RenderNodeOp, ⟨0, 0, 0, 0⟩, s.transform, s.clip, none, [], some n⟩ =
        n.stagedProjectionReceiver := rfl
    split
    · next hcond =>
      obtain ⟨hstag, hneg⟩ := hcond
      rw [addOp_projectionReceiveIndex] at hneg
      have hnone : projSpecAux s.ops = none :=
        (projSpec_eq_neg_one_iff _).mp (hs ▸ hneg)
      show (s.ops.length : ℤ) = projSpec (addOp s _).ops
      rw [addOp_ops]
      unfold projSpec
      rw [projSpecAux_append, hnone]
      simp [hrecv, hstag]
    · next hcond =>
      unfold ProjInv
      rw [addOp_projectionReceiveIndex, addOp_ops]
      cases haux : projSpecAux s.ops with
      | some i =>
        unfold projSpec
        rw [projSpecAux_append, haux]
        exact hs.trans (by unfold projSpec; rw [haux])
      | none =>
        have hstag : n.stagedProjectionReceiver = false := by
          by_contra hc
          rw [Bool.not_eq_false] at hc
          exact hcond ⟨hc, by
            rw [addOp_projectionReceiveIndex, hs]
            exact (projSpec_eq_neg_one_iff _).mpr haux⟩
        unfold projSpec
        rw [projSpecAux_append, haux]
        rw [hrecv, hstag]
        simp only [Bool.false_eq_true, if_false]
        exact hs.trans (by unfold projSpec; rw [haux])
  | saveLayerAlpha r alpha ctl =>
    show ProjInv (execSaveLayer s r ctl)
    unfold execSaveLayer
    split
    · exact projInv_addOp_not_recv _ _ rfl hs
    · exact projInv_addOp_not_recv _ _ rfl hs
  | insertReorderBarrier b => exact hs

theorem projInv_foldl (s : RState) (cmds : List Cmd) (hs : ProjInv s) :
    ProjInv (cmds.foldl exec s) := by
  induction cmds generalizing s with
  | nil => exact hs
  | cons c rest ih => exact ih _ (projInv_exec s c hs)

theorem closeChunk_ops (s : RState) : (closeChunk s).ops = s.ops := by
  unfold closeChunk; split <;> rfl

theorem closeChunk_projectionReceiveIndex (s : RState) :
    (closeChunk s).projectionReceiveIndex = s.projectionReceiveIndex := by
  unfold closeChunk; split <;> rfl

theorem projInv_iterate_restoreStep (s : RState) (k : ℕ) (hs : ProjInv s) :
    ProjInv (restoreStep^[k] s) := by
  induction k generalizing s with
  | zero => exact hs
  | succ n ih => rw [Function.iterate_succ_apply]; exact ih _ (projInv_restoreStep s hs)

theorem finalize_projSpec (s : RState) (hs : ProjInv s) :
    (finalize s).projectionReceiveIndex = projSpec (finalize s).ops := by
  have h := projInv_iterate_restoreStep s s.saveStack.length hs
  show (closeChunk _).projectionReceiveIndex = projSpec (closeChunk _).ops
  rw [closeChunk_ops, closeChunk_projectionReceiveIndex]
  exact h

/-! ### Claim theorems -/

/-- C10: for every finalized DisplayList, the chunks partition the op sequence
exactly once with no gaps or overlaps (first chunk begins at 0, consecutive
chunks are contiguous, last chunk ends at the op count), and
`projectionReceiveIndex` is either −1 or a valid index into `ops` whose op is
a RenderNodeRef. -/
theorem chunks_partition_and_projection_valid (w h : ℚ) (cmds : List Cmd) :
    chain 0 (run w h cmds).chunks (run w h cmds).ops.length ∧
    ((run w h cmds).projectionReceiveIndex = -1 ∨
      ∃ i : ℕ, (run w h cmds).projectionReceiveIndex = (i : ℤ) ∧
        i < (run w h cmds).ops.length ∧
        ((run w h cmds).ops.getD i dOp).opId = .RenderNodeOp) := by
  have hp : (run w h cmds).projectionReceiveIndex = projSpec (run w h cmds).ops :=
    finalize_projSpec _ (projInv_foldl _ cmds (projInv_init w h))
  constructor
  · exact chain_finalize _ (chunkInv_foldl _ cmds (chunkInv_init w h))
  · cases haux : projSpecAux (run w h cmds).ops with
    | none =>
      left
      rw [hp]
      exact (projSpec_eq_neg_one_iff _).mpr haux
    | some i =>
      right
      obtain ⟨h1, h2, _⟩ := projSpecAux_some_spec _ i haux
      refine ⟨i, ?_, h1, isReceiverRef_opId _ h2⟩
      rw [hp]
      unfold projSpec
      rw [haux]

/-- C4: appending one fewer trailing restore than `n` yields the same
finalized op sequence as appending `n`: finalize synthesizes the missing
restores, and restores beyond the stack floor are no-ops, so the two
recordings agree for every command prefix. -/
theorem unbalanced_restores_equivalent (w h : ℚ) (cmds : List Cmd) (n : ℕ)
    (hn : 1 ≤ n) :
    (run w h (cmds ++ List.replicate (n - 1) .restore)).ops =
      (run w h (cmds ++ List.replicate n .restore)).ops := by
  unfold run
  rw [List.foldl_append, List.foldl_append, foldl_exec_replicate_restore,
    foldl_exec_replicate_restore, finalize_iterate_restoreStep,
    finalize_iterate_restoreStep]

/-- Witness for C4 at the test's concrete input: one `saveLayerAlpha` plus a
draw, with zero trailing restores versus one. -/
theorem unbalanced_restores_equivalent_witness :
    1 ≤ 1 ∧
    (run 200 200 ([.saveLayerAlpha ⟨0, 0, 200, 200⟩ 128 true,
        .drawRect ⟨0, 0, 200, 200⟩ ⟨1, 0⟩] ++ List.replicate (1 - 1) .restore)).ops =
      (run 200 200 ([.saveLayerAlpha ⟨0, 0, 200, 200⟩ 128 true,
        .drawRect ⟨0, 0, 200, 200⟩ ⟨1, 0⟩] ++ List.replicate 1 .restore)).ops :=
  ⟨Nat.le_refl 1, unbalanced_restores_equivalent 200 200 _ 1 (Nat.le_refl 1)⟩

/-- C1 (counterexample): the recorder keys projection detection on the node's
*staging* flag, not the committed one.  Drawing a node whose staging flag is
true while its committed flag is false yields `projectionReceiveIndex = 1`,
although no recorded op references a node with a true committed flag — the
claim as stated requires −1 here. -/
theorem projection_committed_claim_false :
    (run 200 200 [.drawRect ⟨0, 0, 100, 100⟩ ⟨1, 0⟩,
        .drawRenderNode ⟨true, false⟩,
        .drawRect ⟨0, 0, 100, 100⟩ ⟨1, 0⟩]).projectionReceiveIndex = 1 ∧
    ∀ op ∈ (run 200 200 [.drawRect ⟨0, 0, 100, 100⟩ ⟨1, 0⟩,
        .drawRenderNode ⟨true, false⟩,
        .drawRect ⟨0, 0, 100, 100⟩ ⟨1, 0⟩]).ops,
      ∀ nd : RNode, op.node = some nd → nd.committedProjectionReceiver = false := by
  constructor
  · norm_num [run, exec, execDrawRect, execDrawRenderNode, refPaint, addOp,
      RState.init, finalize, closeChunk]
  · intro op hop nd hnd
    norm_num [run, exec, execDrawRect, execDrawRenderNode, refPaint, addOp,
      RState.init, finalize, closeChunk] at hop
    rcases hop with h | h | h <;> subst h
    · simp at hnd
    · rw [Option.some_inj] at hnd
      rw [← hnd]
    · simp at hnd

/-- C1 (amended): `projectionReceiveIndex` equals −1 exactly when no recorded
RenderNodeRef op references a node whose *staging* (pending) projection
receiver flag is true; otherwise it is the index of the first such op in
emission order. -/
theorem projectionReceiveIndex_first_staged_receiver (w h : ℚ) (cmds : List Cmd) :
    ((∀ op ∈ (run w h cmds).ops, isReceiverRef op = false) →
      (run w h cmds).projectionReceiveIndex = -1) ∧
    (∀ i : ℕ, i < (run w h cmds).ops.length →
      isReceiverRef ((run w h cmds).ops.getD i dOp) = true →
      (∀ j, j < i → isReceiverRef ((run w h cmds).ops.getD j dOp) = false) →
      (run w h cmds).projectionReceiveIndex = (i : ℤ)) := by
  have hp : (run w h cmds).projectionReceiveIndex = projSpec (run w h cmds).ops :=
    finalize_projSpec _ (projInv_foldl _ cmds (projInv_init w h))
  constructor
  · intro hall
    rw [hp]
    exact (projSpec_eq_neg_one_iff _).mpr ((projSpecAux_none_iff _).mpr hall)
  · intro i hi hr hf
    rw [hp]
    unfold projSpec
    rw [projSpecAux_eq_some_of_first _ i hi hr hf]

/-- C8: chunk splitting happens only on effective reorder-state transitions.
Conjuncts: the test scenario yields exactly the two chunks `[0,1)` (not
reordered) and `[1,2)` (reordered); two consecutive barrier calls collapse to
the last one (repeated or cancelled toggles between ops are invisible); and
appending an op while the pending barrier equals the open chunk's flag never
splits the chunk. -/
theorem reorder_barrier_chunking (w h : ℚ) (pre post : List Cmd) (b1 b2 : Bool)
    (s : RState) (op : ROp) (hb : s.pendingBarrier = s.curReorder) :
    (run 200 200 [.drawRect ⟨0, 0, 400, 400⟩ ⟨1, 0⟩, .insertReorderBarrier true,
        .insertReorderBarrier false, .insertReorderBarrier false,
        .insertReorderBarrier true, .drawRect ⟨0, 0, 400, 400⟩ ⟨1, 0⟩,
        .insertReorderBarrier false]).chunks = [⟨0, 1, false⟩, ⟨1, 2, true⟩] ∧
    run w h (pre ++ [.insertReorderBarrier b1, .insertReorderBarrier b2] ++ post) =
      run w h (pre ++ [.insertReorderBarrier b2] ++ post) ∧
    (addOp s op).chunks = s.chunks := by
  refine ⟨?_, ?_, ?_⟩
  · norm_num [run, exec, execDrawRect, refPaint, addOp, RState.init, finalize,
      closeChunk]
  · unfold run
    rw [List.foldl_append, List.foldl_append, List.foldl_append, List.foldl_append]
    rfl
  · by_cases he : s.ops.isEmpty = true
    · simp only [addOp, if_pos he]
    · simp only [addOp, if_neg he, if_pos hb]

/-- Witness for C8: concrete instances for every quantifier, with the
pending/current reorder flags of a fresh recorder trivially equal. -/
theorem reorder_barrier_chunking_witness :
    (RState.init 1 1).pendingBarrier = (RState.init 1 1).curReorder ∧
    ((run 200 200 [.drawRect ⟨0, 0, 400, 400⟩ ⟨1, 0⟩, .insertReorderBarrier true,
        .insertReorderBarrier false, .insertReorderBarrier false,
        .insertReorderBarrier true, .drawRect ⟨0, 0, 400, 400⟩ ⟨1, 0⟩,
        .insertReorderBarrier false]).chunks = [⟨0, 1, false⟩, ⟨1, 2, true⟩] ∧
     run 1 1 ([] ++ [.insertReorderBarrier true, .insertReorderBarrier false] ++ []) =
       run 1 1 ([] ++ [.insertReorderBarrier false] ++ []) ∧
     (addOp (RState.init 1 1) dOp).chunks = (RState.init 1 1).chunks) :=
  ⟨rfl, reorder_barrier_chunking 1 1 [] [] true false (RState.init 1 1) dOp rfl⟩

/-! ### Clip object identity: freshness invariant -/

/-- Every clip object tracked here was allocated below the given counter. -/
def clipBelow (n : ℕ) (oc : Option ClipObj) : Prop :=
  ∀ c : ClipObj, oc = some c → c.id < n

/-- The recorder only ever holds clip objects allocated by itself: both the
current clip and every saved frame's clip have ids below `nextClipId`. -/
def ClipIdInv (s : RState) : Prop :=
  clipBelow s.nextClipId s.clip ∧ ∀ f ∈ s.saveStack, clipBelow s.nextClipId f.clip

theorem clipBelow_mono (n m : ℕ) (oc : Option ClipObj) (h : clipBelow n oc)
    (hnm : n ≤ m) : clipBelow m oc :=
  fun c hc => lt_of_lt_of_le (h c hc) hnm

theorem clipIdInv_init (w h : ℚ) : ClipIdInv (RState.init w h) := by
  constructor
  · intro c hc
    cases hc
  · intro f hf
    exact absurd hf (List.not_mem_nil f)

theorem clipIdInv_addOp (s : RState) (op : ROp) (hs : ClipIdInv s) :
    ClipIdInv (addOp s op) := by
  unfold ClipIdInv at *
  rw [addOp_clip, addOp_saveStack, addOp_nextClipId]
  exact hs

theorem clipIdInv_refPaint (s : RState) (p : PaintQ) (hs : ClipIdInv s) :
    ClipIdInv (refPaint s p).2 := by
  unfold ClipIdInv at *
  rw [refPaint_clip, refPaint_saveStack, refPaint_nextClipId]
  exact hs

theorem clipIdInv_restoreStep (s : RState) (hs : ClipIdInv s) :
    ClipIdInv (restoreStep s) := by
  obtain ⟨h1, h2⟩ := hs
  unfold restoreStep
  split
  · exact ⟨h1, h2⟩
  · next f rest heq =>
    have hf : clipBelow s.nextClipId f.clip :=
      h2 f (by rw [heq]; exact List.mem_cons_self f rest)
    have hrest : ∀ f' ∈ rest, clipBelow s.nextClipId f'.clip := by
      intro f' hf'
      exact h2 f' (by rw [heq]; exact List.mem_cons_of_mem f hf')
    cases f.kind
    case plain =>
      refine ⟨?_, fun f' hf' => hrest f' hf'⟩
      intro c hc
      show c.id < s.nextClipId
      have hc' : (if f.restoreClip then f.clip else s.clip) = some c := hc
      split at hc'
      · exact hf c hc'
      · exact h1 c hc'
    case clippedLayer =>
      refine ⟨?_, ?_⟩
      · intro c hc
        show c.id < (addOp s ⟨.EndLayerOp, ⟨0, 0, 0, 0⟩, s.transform, s.clip,
          none, [], none⟩).nextClipId
        rw [addOp_nextClipId]
        have hc' : (if f.restoreClip then f.clip
            else (addOp s ⟨.EndLayerOp, ⟨0, 0, 0, 0⟩, s.transform, s.clip,
              none, [], none⟩).clip) = some c := hc
        rw [addOp_clip] at hc'
        split at hc'
        · exact hf c hc'
        · exact h1 c hc'
      · intro f' hf'
        show clipBelow (addOp s ⟨.EndLayerOp, ⟨0, 0, 0, 0⟩, s.transform, s.clip,
          none, [], none⟩).nextClipId f'.clip
        rw [addOp_nextClipId]
        exact hrest f' hf'
    case unclippedLayer =>
      refine ⟨?_, ?_⟩
      · intro c hc
        show c.id < (addOp s ⟨.EndUnclippedLayerOp, ⟨0, 0, 0, 0⟩, s.transform,
          s.clip, none, [], none⟩).nextClipId
        rw [addOp_nextClipId]
        have hc' : (if f.restoreClip then f.clip
            else (addOp s ⟨.EndUnclippedLayerOp, ⟨0, 0, 0, 0⟩, s.transform,
              s.clip, none, [], none⟩).clip) = some c := hc
        rw [addOp_clip] at hc'
        split at hc'
        · exact hf c hc'
        · exact h1 c hc'
      · intro f' hf'
        show clipBelow (addOp s ⟨.EndUnclippedLayerOp, ⟨0, 0, 0, 0⟩, s.transform,
          s.clip, none, [], none⟩).nextClipId f'.clip
        rw [addOp_nextClipId]
        exact hrest f' hf'

theorem clipBelow_addOp (s : RState) (op : ROp) (oc : Option ClipObj)
    (h : clipBelow s.nextClipId oc) : clipBelow (addOp s op).nextClipId oc := by
  rw [addOp_nextClipId]
  exact h

theorem clipIdInv_exec (s : RState) (c : Cmd) (hs : ClipIdInv s) :
    ClipIdInv (exec s c) := by
  obtain ⟨h1, h2⟩ := hs
  cases c with
  | save m c =>
    refine ⟨h1, ?_⟩
    intro f hf
    rcases List.mem_cons.mp hf with rfl | hmem
    · exact h1
    · exact h2 f hmem
  | restore => exact clipIdInv_restoreStep s ⟨h1, h2⟩
  | translate dx dy => exact ⟨h1, h2⟩
  | rotate co si => exact ⟨h1, h2⟩
  | clipRectCmd r cop =>
    show ClipIdInv (execClipRect s r cop)
    unfold execClipRect
    dsimp only
    repeat' split
    all_goals
      first
      | exact ⟨h1, h2⟩
      | (refine ⟨?_, ?_⟩
         · intro c hc
           have hce := Option.some_inj.mp hc
           rw [← hce]
           exact Nat.lt_succ_self _
         · intro f hf
           exact clipBelow_mono _ _ _ (h2 f hf) (Nat.le_succ _))
  | drawRect r p => exact clipIdInv_addOp _ _ (clipIdInv_refPaint s p ⟨h1, h2⟩)
  | drawLines pts p => exact clipIdInv_addOp _ _ (clipIdInv_refPaint s p ⟨h1, h2⟩)
  | drawRenderNode n =>
    show ClipIdInv (execDrawRenderNode s n)
    unfold execDrawRenderNode
    dsimp only
    split
    · exact clipIdInv_addOp s _ ⟨h1, h2⟩
    · exact clipIdInv_addOp s _ ⟨h1, h2⟩
  | saveLayerAlpha r alpha ctl =>
    show ClipIdInv (execSaveLayer s r ctl)
    unfold execSaveLayer
    dsimp only
    split
    · refine ⟨?_, ?_⟩
      · intro c hc
        have hce := Option.some_inj.mp hc
        rw [← hce]
        exact Nat.lt_succ_self _
      · intro f hf
        rcases List.mem_cons.mp hf with rfl | hmem
        · refine clipBelow_mono _ _ _ ?_ (Nat.le_succ _)
          exact clipBelow_addOp s _ _ h1
        · have hmem2 : f ∈ s.saveStack := by
            have hmem3 : f ∈ (addOp s ⟨.BeginLayerOp, r, Mat.identity, none,
              none, [], none⟩).saveStack := hmem
            rw [addOp_saveStack] at hmem3
            exact hmem3
          refine clipBelow_mono _ _ _ ?_ (Nat.le_succ _)
          exact clipBelow_addOp s _ _ (h2 f hmem2)
    · refine ⟨?_, ?_⟩
      · refine clipBelow_addOp s _ _ ?_
        have : (addOp s ⟨.BeginUnclippedLayerOp, r, Mat.identity, none, none,
          [], none⟩).clip = s.clip := addOp_clip s _
        rw [this]
        exact h1
      · intro f hf
        rcases List.mem_cons.mp hf with rfl | hmem
        · exact clipBelow_addOp s _ _ h1
        · have hmem2 : f ∈ s.saveStack := by
            have hmem3 : f ∈ (addOp s ⟨.BeginUnclippedLayerOp, r, Mat.identity,
              none, none, [], none⟩).saveStack := hmem
            rw [addOp_saveStack] at hmem3
            exact hmem3
          exact clipBelow_addOp s _ _ (h2 f hmem2)
  | insertReorderBarrier b => exact ⟨h1, h2⟩

theorem clipIdInv_foldl (s : RState) (cmds : List Cmd) (hs : ClipIdInv s) :
    ClipIdInv (cmds.foldl exec s) := by
  induction cmds generalizing s with
  | nil => exact hs
  | cons c rest ih => exact ih _ (clipIdInv_exec s c hs)

/-- State of the recorder after executing a command list on a fresh canvas of
the given extent (before finalization). -/
def recState (w h : ℚ) (cmds : List Cmd) : RState :=
  cmds.foldl exec (RState.init w h)

/-- The current effective clip, as a shape: `none` means "full canvas". -/
def effectiveClipShape (s : RState) : Option RectQ :=
  s.clip.map ClipObj.rect

theorem execDrawRect_ops (s : RState) (r : RectQ) (p : PaintQ) :
    (execDrawRect s r p).ops =
      s.ops ++ [⟨.RectOp, r, s.transform, s.clip, some (refPaint s p).1, [], none⟩] := by
  show (addOp (refPaint s p).2 ⟨.RectOp, r, (refPaint s p).2.transform,
    (refPaint s p).2.clip, some (refPaint s p).1, [], none⟩).ops = _
  rw [addOp_ops, refPaint_ops, refPaint_transform, refPaint_clip]

theorem execDrawRect_clip (s : RState) (r : RectQ) (p : PaintQ) :
    (execDrawRect s r p).clip = s.clip := by
  show (addOp (refPaint s p).2 _).clip = _
  rw [addOp_clip, refPaint_clip]

theorem execDrawRect_transform (s : RState) (r : RectQ) (p : PaintQ) :
    (execDrawRect s r p).transform = s.transform := by
  show (addOp (refPaint s p).2 _).transform = _
  rw [addOp_transform, refPaint_transform]

theorem execClipRect_clip_cases (s : RState) (r : RectQ) (cop : ClipOp) :
    execClipRect s r cop = s ∨
      ∃ rr : RectQ, (execClipRect s r cop).clip =
        some ⟨s.nextClipId, .rectangle, rr⟩ := by
  unfold execClipRect
  dsimp only
  repeat' split
  all_goals first
    | (left; rfl)
    | (right; exact ⟨_, rfl⟩)

/-- C6: clip objects are shared by reference across ops while the effective
clip is unchanged, and a clip-changing call allocates a genuinely different
object.  Conjuncts: the concrete two-draw scenario yields exactly 2 ops whose
`localClip` references are equal, are non-null, and carry the rectangle
`(0,0,100,100)`; recording two consecutive draws from any reachable state
attaches the identical clip reference to both appended ops; and a `clipRect`
call that changes the effective clip shape makes the recorder hold a clip
object different from the previous one — with a strictly different object id
(the model's rendering of pointer inequality). -/
theorem clip_object_sharing (w h : ℚ) (cmds : List Cmd) (r : RectQ)
    (cop : ClipOp) (r1 r2 : RectQ) (p1 p2 : PaintQ)
    (hchg : effectiveClipShape (execClipRect (recState w h cmds) r cop) ≠
      effectiveClipShape (recState w h cmds)) :
    ((run 100 100 [.save true true, .clipRectCmd ⟨0, 0, 100, 100⟩ .intersect,
        .drawRect ⟨0, 0, 50, 50⟩ ⟨1, 0⟩, .drawRect ⟨50, 50, 100, 100⟩ ⟨1, 0⟩,
        .restore]).ops.length = 2 ∧
      ((run 100 100 [.save true true, .clipRectCmd ⟨0, 0, 100, 100⟩ .intersect,
        .drawRect ⟨0, 0, 50, 50⟩ ⟨1, 0⟩, .drawRect ⟨50, 50, 100, 100⟩ ⟨1, 0⟩,
        .restore]).ops.getD 0 dOp).localClip =
        ((run 100 100 [.save true true, .clipRectCmd ⟨0, 0, 100, 100⟩ .intersect,
          .drawRect ⟨0, 0, 50, 50⟩ ⟨1, 0⟩, .drawRect ⟨50, 50, 100, 100⟩ ⟨1, 0⟩,
          .restore]).ops.getD 1 dOp).localClip ∧
      ((run 100 100 [.save true true, .clipRectCmd ⟨0, 0, 100, 100⟩ .intersect,
        .drawRect ⟨0, 0, 50, 50⟩ ⟨1, 0⟩, .drawRect ⟨50, 50, 100, 100⟩ ⟨1, 0⟩,
        .restore]).ops.getD 0 dOp).localClip =
        some ⟨0, .rectangle, ⟨0, 0, 100, 100⟩⟩) ∧
    (∃ opA opB : ROp,
      (exec (exec (recState w h cmds) (.drawRect r1 p1)) (.drawRect r2 p2)).ops =
        (recState w h cmds).ops ++ [opA, opB] ∧
      opA.localClip = opB.localClip ∧
      opA.localClip = (recState w h cmds).clip) ∧
    (execClipRect (recState w h cmds) r cop).clip ≠ (recState w h cmds).clip ∧
    (∀ c c' : ClipObj, (recState w h cmds).clip = some c →
      (execClipRect (recState w h cmds) r cop).clip = some c' → c'.id ≠ c.id) := by
  have hinv : ClipIdInv (recState w h cmds) :=
    clipIdInv_foldl (RState.init w h) cmds (clipIdInv_init w h)
  rcases execClipRect_clip_cases (recState w h cmds) r cop with hsame | ⟨rr, hnew⟩
  case inl => exact absurd (by rw [hsame]) hchg
  refine ⟨⟨?_, ?_, ?_⟩, ?_, ?_, ?_⟩
  · norm_num [run, exec, execDrawRect, execClipRect, refPaint, addOp,
      RState.init, finalize, closeChunk, restoreStep, Mat.mapRect, Mat.applyX,
      Mat.applyY, min4, max4, Mat.identity, RState.viewport, RectQ.intersect]
  · norm_num [run, exec, execDrawRect, execClipRect, refPaint, addOp,
      RState.init, finalize, closeChunk, restoreStep, Mat.mapRect, Mat.applyX,
      Mat.applyY, min4, max4, Mat.identity, RState.viewport, RectQ.intersect]
  · norm_num [run, exec, execDrawRect, execClipRect, refPaint, addOp,
      RState.init, finalize, closeChunk, restoreStep, Mat.mapRect, Mat.applyX,
      Mat.applyY, min4, max4, Mat.identity, RState.viewport, RectQ.intersect]
  · refine ⟨⟨.RectOp, r1, (recState w h cmds).transform, (recState w h cmds).clip,
      some (refPaint (recState w h cmds) p1).1, [], none⟩,
      ⟨.RectOp, r2, (recState w h cmds).transform, (recState w h cmds).clip,
      some (refPaint (execDrawRect (recState w h cmds) r1 p1) p2).1, [], none⟩,
      ?_, rfl, rfl⟩
    show (execDrawRect (execDrawRect (recState w h cmds) r1 p1) r2 p2).ops = _
    rw [execDrawRect_ops, execDrawRect_ops, execDrawRect_clip,
      execDrawRect_transform, List.append_assoc]
    rfl
  · rw [hnew]
    cases hstc : (recState w h cmds).clip with
    | none => simp
    | some c =>
      have hid := hinv.1 c hstc
      intro heq
      have hobj := Option.some_inj.mp heq
      have : (recState w h cmds).nextClipId = c.id := congrArg ClipObj.id hobj
      omega
  · intro c c' hc hc'
    rw [hnew] at hc'
    have hobj := Option.some_inj.mp hc'
    have hid := hinv.1 c hc
    rw [← hobj]
    show (recState w h cmds).nextClipId ≠ c.id
    omega

/-! ### Paint capture: cache behavior and freshness -/

theorem refPaint_fst_content (s : RState) (p : PaintQ) :
    (refPaint s p).1.content = p := by
  cases hpc : s.paintCache with
  | none => simp [refPaint, hpc]
  | some ci =>
    obtain ⟨c, i⟩ := ci
    by_cases hcp : c = p
    · simp [refPaint, hpc, hcp]
    · simp [refPaint, hpc, hcp]

theorem refPaint_cache (s : RState) (p : PaintQ) :
    (refPaint s p).2.paintCache = some (p, (refPaint s p).1.id) := by
  cases hpc : s.paintCache with
  | none => simp [refPaint, hpc]
  | some ci =>
    obtain ⟨c, i⟩ := ci
    by_cases hcp : c = p
    · simp [refPaint, hpc, hcp]
    · simp [refPaint, hpc, hcp]

theorem refPaint_of_cache_hit (s : RState) (p : PaintQ) (i : ℕ)
    (h : s.paintCache = some (p, i)) : refPaint s p = (⟨i, p⟩, s) := by
  simp [refPaint, h]

theorem refPaint_of_cache_miss (s : RState) (q c : PaintQ) (i : ℕ)
    (h : s.paintCache = some (c, i)) (hne : c ≠ q) :
    refPaint s q = (⟨s.nextPaintId, q⟩,
      { s with paintCache := some (q, s.nextPaintId),
               nextPaintId := s.nextPaintId + 1 }) := by
  simp [refPaint, h, hne]

/-- Cached captured-paint ids were allocated below `nextPaintId`. -/
def PaintIdInv (s : RState) : Prop :=
  ∀ q : PaintQ, ∀ i : ℕ, s.paintCache = some (q, i) → i < s.nextPaintId

theorem paintIdInv_init (w h : ℚ) : PaintIdInv (RState.init w h) := by
  intro q i hqi
  cases hqi

theorem paintIdInv_addOp (s : RState) (op : ROp) (hs : PaintIdInv s) :
    PaintIdInv (addOp s op) := by
  unfold PaintIdInv at *
  rw [addOp_paintCache, addOp_nextPaintId]
  exact hs

theorem paintIdInv_refPaint (s : RState) (p : PaintQ) (hs : PaintIdInv s) :
    PaintIdInv (refPaint s p).2 := by
  cases hpc : s.paintCache with
  | none =>
    have hred : (refPaint s p).2 = { s with
        paintCache := some (p, s.nextPaintId),
        nextPaintId := s.nextPaintId + 1 } := by
      simp [refPaint, hpc]
    rw [hred]
    intro q i hqi
    have h2 := Option.some_inj.mp hqi
    have hi := congrArg Prod.snd h2
    show i < s.nextPaintId + 1
    omega
  | some ci =>
    obtain ⟨c, i0⟩ := ci
    by_cases hcp : c = p
    · have hred : (refPaint s p).2 = s := by simp [refPaint, hpc, hcp]
      rw [hred]
      exact hs
    · have hred : (refPaint s p).2 = { s with
          paintCache := some (p, s.nextPaintId),
          nextPaintId := s.nextPaintId + 1 } := by
        simp [refPaint, hpc, hcp]
      rw [hred]
      intro q i hqi
      have h2 := Option.some_inj.mp hqi
      have hi := congrArg Prod.snd h2
      show i < s.nextPaintId + 1
      omega

theorem paintIdInv_restoreStep (s : RState) (hs : PaintIdInv s) :
    PaintIdInv (restoreStep s) := by
  unfold restoreStep
  split
  · exact hs
  · next f rest heq =>
    cases f.kind
    case plain => exact hs
    case clippedLayer => exact paintIdInv_addOp s _ hs
    case unclippedLayer => exact paintIdInv_addOp s _ hs

theorem paintIdInv_exec (s : RState) (c : Cmd) (hs : PaintIdInv s) :
    PaintIdInv (exec s c) := by
  cases c with
  | save m c => exact hs
  | restore => exact paintIdInv_restoreStep s hs
  | translate dx dy => exact hs
  | rotate co si => exact hs
  | clipRectCmd r cop =>
    show PaintIdInv (execClipRect s r cop)
    unfold execClipRect
    dsimp only
    repeat' split
    all_goals exact hs
  | drawRect r p => exact paintIdInv_addOp _ _ (paintIdInv_refPaint s p hs)
  | drawLines pts p => exact paintIdInv_addOp _ _ (paintIdInv_refPaint s p hs)
  | drawRenderNode n =>
    show PaintIdInv (execDrawRenderNode s n)
    unfold execDrawRenderNode
    dsimp only
    split
    · exact paintIdInv_addOp s _ hs
    · exact paintIdInv_addOp s _ hs
  | saveLayerAlpha r alpha ctl =>
    show PaintIdInv (execSaveLayer s r ctl)
    unfold execSaveLayer
    split
    · exact paintIdInv_addOp s _ hs
    · exact paintIdInv_addOp s _ hs
  | insertReorderBarrier b => exact hs

theorem paintIdInv_foldl (s : RState) (cmds : List Cmd) (hs : PaintIdInv s) :
    PaintIdInv (cmds.foldl exec s) := by
  induction cmds generalizing s with
  | nil => exact hs
  | cons c rest ih => exact ih _ (paintIdInv_exec s c hs)

theorem execDrawRect_paintCache (s : RState) (r : RectQ) (p : PaintQ) :
    (execDrawRect s r p).paintCache = some (p, (refPaint s p).1.id) := by
  show (addOp (refPaint s p).2 _).paintCache = _
  rw [addOp_paintCache, refPaint_cache]

/-- C9: style descriptors are captured as immutable recorder-owned copies,
deduplicated while the observable content is unchanged.  Conjuncts: in the
concrete scenario (three draws with the same content, then one with changed
content) the first three ops reference the identical captured copy (id 0) and
the fourth references a fresh copy (id 1) — no op's reference is null, and
the early ops keep the originally captured content even though the caller's
style changed later; from any reachable state, two consecutive draws with
unchanged content share one captured copy whose content equals the source;
and a draw whose content changed since the last capture gets a copy with a
strictly different object id, each copy carrying its own captured content. -/
theorem style_capture_dedup (w h : ℚ) (cmds : List Cmd) (r1 r2 : RectQ)
    (p q : PaintQ) (hpq : p ≠ q) :
    (((run 200 200 [.drawRect ⟨0, 0, 200, 10⟩ ⟨1, 0⟩,
        .drawRect ⟨0, 10, 200, 20⟩ ⟨1, 0⟩, .drawRect ⟨0, 20, 200, 25⟩ ⟨1, 0⟩,
        .drawRect ⟨0, 25, 200, 30⟩ ⟨2, 0⟩]).ops.getD 0 dOp).paint =
          some ⟨0, ⟨1, 0⟩⟩ ∧
      ((run 200 200 [.drawRect ⟨0, 0, 200, 10⟩ ⟨1, 0⟩,
        .drawRect ⟨0, 10, 200, 20⟩ ⟨1, 0⟩, .drawRect ⟨0, 20, 200, 25⟩ ⟨1, 0⟩,
        .drawRect ⟨0, 25, 200, 30⟩ ⟨2, 0⟩]).ops.getD 1 dOp).paint =
          some ⟨0, ⟨1, 0⟩⟩ ∧
      ((run 200 200 [.drawRect ⟨0, 0, 200, 10⟩ ⟨1, 0⟩,
        .drawRect ⟨0, 10, 200, 20⟩ ⟨1, 0⟩, .drawRect ⟨0, 20, 200, 25⟩ ⟨1, 0⟩,
        .drawRect ⟨0, 25, 200, 30⟩ ⟨2, 0⟩]).ops.getD 2 dOp).paint =
          some ⟨0, ⟨1, 0⟩⟩ ∧
      ((run 200 200 [.drawRect ⟨0, 0, 200, 10⟩ ⟨1, 0⟩,
        .drawRect ⟨0, 10, 200, 20⟩ ⟨1, 0⟩, .drawRect ⟨0, 20, 200, 25⟩ ⟨1, 0⟩,
        .drawRect ⟨0, 25, 200, 30⟩ ⟨2, 0⟩]).ops.getD 3 dOp).paint =
          some ⟨1, ⟨2, 0⟩⟩) ∧
    (∃ opA opB : ROp,
      (exec (exec (recState w h cmds) (.drawRect r1 p)) (.drawRect r2 p)).ops =
        (recState w h cmds).ops ++ [opA, opB] ∧
      opA.paint = opB.paint ∧
      ∃ cp : CapturedPaint, opA.paint = some cp ∧ cp.content = p) ∧
    (∃ opA opB : ROp, ∃ cpA cpB : CapturedPaint,
      (exec (exec (recState w h cmds) (.drawRect r1 p)) (.drawRect r2 q)).ops =
        (recState w h cmds).ops ++ [opA, opB] ∧
      opA.paint = some cpA ∧ opB.paint = some cpB ∧
      cpA.id ≠ cpB.id ∧ cpA.content = p ∧ cpB.content = q) := by
  have hPinv : PaintIdInv (recState w h cmds) :=
    paintIdInv_foldl (RState.init w h) cmds (paintIdInv_init w h)
  have hc1 : (execDrawRect (recState w h cmds) r1 p).paintCache =
      some (p, (refPaint (recState w h cmds) p).1.id) :=
    execDrawRect_paintCache _ r1 p
  have hmk : (⟨(refPaint (recState w h cmds) p).1.id, p⟩ : CapturedPaint) =
      (refPaint (recState w h cmds) p).1 := by
    have hco := refPaint_fst_content (recState w h cmds) p
    rcases hre : (refPaint (recState w h cmds) p).1 with ⟨i, c⟩
    rw [hre] at hco
    have hcp : c = p := hco
    rw [hcp]
  refine ⟨?_, ?_, ?_⟩
  · norm_num [run, exec, execDrawRect, refPaint, addOp, RState.init, finalize,
      closeChunk]
  · have hhit := refPaint_of_cache_hit (execDrawRect (recState w h cmds) r1 p) p
      (refPaint (recState w h cmds) p).1.id hc1
    refine ⟨⟨.RectOp, r1, (recState w h cmds).transform, (recState w h cmds).clip,
        some (refPaint (recState w h cmds) p).1, [], none⟩,
      ⟨.RectOp, r2, (recState w h cmds).transform, (recState w h cmds).clip,
        some (refPaint (execDrawRect (recState w h cmds) r1 p) p).1, [], none⟩,
      ?_, ?_, ⟨(refPaint (recState w h cmds) p).1, rfl, refPaint_fst_content _ p⟩⟩
    · show (execDrawRect (execDrawRect (recState w h cmds) r1 p) r2 p).ops = _
      rw [execDrawRect_ops, execDrawRect_ops, execDrawRect_clip,
        execDrawRect_transform, List.append_assoc]
      rfl
    · show some (refPaint (recState w h cmds) p).1 =
        some (refPaint (execDrawRect (recState w h cmds) r1 p) p).1
      rw [hhit]
      exact congrArg some hmk.symm
  · have hmiss := refPaint_of_cache_miss (execDrawRect (recState w h cmds) r1 p)
      q p (refPaint (recState w h cmds) p).1.id hc1 hpq
    have hP2 : PaintIdInv (execDrawRect (recState w h cmds) r1 p) :=
      paintIdInv_addOp _ _ (paintIdInv_refPaint _ p hPinv)
    have hlt : (refPaint (recState w h cmds) p).1.id <
        (execDrawRect (recState w h cmds) r1 p).nextPaintId :=
      hP2 p _ hc1
    refine ⟨⟨.RectOp, r1, (recState w h cmds).transform, (recState w h cmds).clip,
        some (refPaint (recState w h cmds) p).1, [], none⟩,
      ⟨.RectOp, r2, (recState w h cmds).transform, (recState w h cmds).clip,
        some (refPaint (execDrawRect (recState w h cmds) r1 p) q).1, [], none⟩,
      (refPaint (recState w h cmds) p).1,
      ⟨(execDrawRect (recState w h cmds) r1 p).nextPaintId, q⟩,
      ?_, rfl, ?_, ?_, refPaint_fst_content _ p, rfl⟩
    · show (execDrawRect (execDrawRect (recState w h cmds) r1 p) r2 q).ops = _
      rw [execDrawRect_ops, execDrawRect_ops, execDrawRect_clip,
        execDrawRect_transform, List.append_assoc]
      rfl
    · show some (refPaint (execDrawRect (recState w h cmds) r1 p) q).1 = _
      rw [hmiss]
    · exact Nat.ne_of_lt hlt

/-- Witness for C9: concrete instances with two genuinely different style
contents. -/
theorem style_capture_dedup_witness :
    ((⟨1, 0⟩ : PaintQ) ≠ ⟨2, 0⟩) ∧
    (∃ opA opB : ROp, ∃ cpA cpB : CapturedPaint,
      (exec (exec (recState 100 100 []) (.drawRect ⟨0, 0, 1, 1⟩ ⟨1, 0⟩))
        (.drawRect ⟨0, 0, 2, 2⟩ ⟨2, 0⟩)).ops =
        (recState 100 100 []).ops ++ [opA, opB] ∧
      opA.paint = some cpA ∧ opB.paint = some cpB ∧
      cpA.id ≠ cpB.id ∧ cpA.content = ⟨1, 0⟩ ∧ cpB.content = ⟨2, 0⟩) := by
  have hne : (⟨1, 0⟩ : PaintQ) ≠ ⟨2, 0⟩ := by
    intro hcon
    have := congrArg PaintQ.color hcon
    norm_num at this
  exact ⟨hne, (style_capture_dedup 100 100 [] ⟨0, 0, 1, 1⟩ ⟨0, 0, 2, 2⟩
    ⟨1, 0⟩ ⟨2, 0⟩ hne).2.2⟩

/-- Witness for C6: on a fresh 100×100 canvas, `clipRect(0,0,50,50)` changes
the effective clip (from "full canvas" to a rectangle), so the recorder must
hold a different clip object afterwards. -/
theorem clip_object_sharing_witness :
    (effectiveClipShape (execClipRect (recState 100 100 []) ⟨0, 0, 50, 50⟩
        .intersect) ≠ effectiveClipShape (recState 100 100 [])) ∧
    (execClipRect (recState 100 100 []) ⟨0, 0, 50, 50⟩ .intersect).clip ≠
      (recState 100 100 []).clip := by
  have hch : effectiveClipShape (execClipRect (recState 100 100 [])
      ⟨0, 0, 50, 50⟩ .intersect) ≠ effectiveClipShape (recState 100 100 []) :=
    fun hcon => Option.noConfusion hcon
  exact ⟨hch, (clip_object_sharing 100 100 [] ⟨0, 0, 50, 50⟩ .intersect
    ⟨0, 0, 1, 1⟩ ⟨0, 0, 1, 1⟩ ⟨1, 0⟩ ⟨1, 0⟩ hch).2.2.1⟩

/-! ### drawLines: truncation and tight bounds -/

/-- The specification's tight axis-aligned bounding box of a nonempty point
run: componentwise minima and maxima over all consumed coordinate pairs. -/
def tightAABB (q0 : ℚ × ℚ) (qs : List (ℚ × ℚ)) : RectQ :=
  ⟨(qs.map Prod.fst).foldl min q0.1, (qs.map Prod.snd).foldl min q0.2,
   (qs.map Prod.fst).foldl max q0.1, (qs.map Prod.snd).foldl max q0.2⟩

theorem foldl_unionPoint (ps : List (ℚ × ℚ)) (r : RectQ) :
    ps.foldl RectQ.unionPoint r =
      ⟨(ps.map Prod.fst).foldl min r.left, (ps.map Prod.snd).foldl min r.top,
       (ps.map Prod.fst).foldl max r.right, (ps.map Prod.snd).foldl max r.bottom⟩ := by
  induction ps generalizing r with
  | nil => rfl
  | cons qp qs ih =>
    simp only [List.foldl_cons, List.map_cons, ih]
    rfl

/-- The code-shaped bounds fold (seed at the first point, then expand) agrees
with the specification's tight AABB. -/
theorem calcBounds_eq_tightAABB (q0 : ℚ × ℚ) (qs : List (ℚ × ℚ)) :
    calcBoundsOfPoints (q0 :: qs) = tightAABB q0 qs := by
  unfold calcBoundsOfPoints tightAABB
  exact foldl_unionPoint qs ⟨q0.1, q0.2, q0.1, q0.2⟩

theorem execDrawLines_ops (s : RState) (pts : List ℚ) (p : PaintQ) :
    (execDrawLines s pts p).ops = s.ops ++
      [⟨.LinesOp, calcBoundsOfPoints (pairsOf (pts.take (pts.length / 4 * 4))),
        s.transform, s.clip, some (refPaint s p).1,
        pts.take (pts.length / 4 * 4), none⟩] := by
  show (addOp (refPaint s p).2 _).ops = _
  rw [addOp_ops, refPaint_ops, refPaint_transform, refPaint_clip]

theorem execDrawLines_saveStack (s : RState) (pts : List ℚ) (p : PaintQ) :
    (execDrawLines s pts p).saveStack = s.saveStack := by
  show (addOp (refPaint s p).2 _).saveStack = _
  rw [addOp_saveStack, refPaint_saveStack]

/-- C3: `drawLines` records one LinesOp holding exactly `(count/4)*4` floats
(the dangling partial segment is dropped), and its `unmappedBounds` is the
tight AABB over only the consumed coordinate pairs — computed from the
geometry alone, never outset by the style's stroke width. -/
theorem drawLines_truncation_and_bounds (w h : ℚ) (pts : List ℚ) (p : PaintQ) :
    (run w h [.drawLines pts p]).ops.length = 1 ∧
    ((run w h [.drawLines pts p]).ops.getD 0 dOp).opId = .LinesOp ∧
    ((run w h [.drawLines pts p]).ops.getD 0 dOp).floatCount =
      pts.length / 4 * 4 ∧
    ((run w h [.drawLines pts p]).ops.getD 0 dOp).unmappedBounds =
      (match pairsOf (pts.take (pts.length / 4 * 4)) with
       | [] => (⟨0, 0, 0, 0⟩ : RectQ)
       | q0 :: qs => tightAABB q0 qs) := by
  have hstack : (exec (RState.init w h) (.drawLines pts p)).saveStack = [] := by
    show (execDrawLines (RState.init w h) pts p).saveStack = []
    rw [execDrawLines_saveStack]
    rfl
  have hops : (run w h [.drawLines pts p]).ops =
      [⟨.LinesOp, calcBoundsOfPoints (pairsOf (pts.take (pts.length / 4 * 4))),
        Mat.identity, none, some (refPaint (RState.init w h) p).1,
        pts.take (pts.length / 4 * 4), none⟩] := by
    show (finalize (exec (RState.init w h) (.drawLines pts p))).ops = _
    unfold finalize
    rw [hstack]
    simp only [List.length_nil, Function.iterate_zero_apply]
    show (closeChunk _).ops = _
    rw [closeChunk_ops]
    show (execDrawLines (RState.init w h) pts p).ops = _
    rw [execDrawLines_ops]
    rfl
  refine ⟨?_, ?_, ?_, ?_⟩
  · rw [hops]
    rfl
  · rw [hops]
    rfl
  · rw [hops]
    show (pts.take (pts.length / 4 * 4)).length = pts.length / 4 * 4
    rw [List.length_take]
    exact Nat.min_eq_left (Nat.div_mul_le_self pts.length 4)
  · rw [hops]
    show calcBoundsOfPoints (pairsOf (pts.take (pts.length / 4 * 4))) = _
    cases hp : pairsOf (pts.take (pts.length / 4 * 4)) with
    | nil => rfl
    | cons q0 qs => exact calcBounds_eq_tightAABB q0 qs

/-! ### saveLayer clip-flag forcing -/

theorem execSaveLayer_of_none (s : RState) (rq : RectQ) (hsc : s.clip = none) :
    execSaveLayer s rq false =
      { (addOp s ⟨.BeginUnclippedLayerOp, rq, Mat.identity, none, none, [], none⟩) with
        saveStack := ⟨s.transform, s.clip, true, true, .unclippedLayer⟩ ::
          (addOp s ⟨.BeginUnclippedLayerOp, rq, Mat.identity, none, none, [],
            none⟩).saveStack } := by
  unfold execSaveLayer
  rw [hsc]
  rfl

theorem execSaveLayer_ops_clipped (s : RState) (rq : RectQ) (ctl : Bool)
    (hcl : (ctl || s.clip.isSome) = true) :
    (execSaveLayer s rq ctl).ops =
      s.ops ++ [⟨.BeginLayerOp, rq, Mat.identity, none, none, [], none⟩] := by
  unfold execSaveLayer
  rw [if_pos hcl]
  show (addOp s _).ops = _
  rw [addOp_ops]

/-- C7: an unclipped `saveLayerAlpha` is promoted to a clipped layer exactly
when a clip is active.  Conjuncts: the Begin op emitted by a flagless
`saveLayerAlpha` is `BeginUnclippedLayerOp` when no clip is active and
`BeginLayerOp` otherwise (carrying the requested bounds); with no active clip
the layer boundary leaves the child transform and clip untouched; the
concrete clip-then-unclipped-saveLayer scenario records `BeginLayerOp` first
among its 3 ops; and the concrete clipless scenario records
`BeginUnclippedLayerOp`, a child RectOp with null clip and identity matrix,
then `EndUnclippedLayerOp`. -/
theorem saveLayer_active_clip_forces_clipped (s : RState) (l t r b : ℚ)
    (alpha : ℕ) :
    (∃ op : ROp,
      (exec s (.saveLayerAlpha ⟨l, t, r, b⟩ alpha false)).ops = s.ops ++ [op] ∧
      op.opId = (if s.clip = none then OpId.BeginUnclippedLayerOp
        else OpId.BeginLayerOp) ∧
      op.unmappedBounds = ⟨l, t, r, b⟩) ∧
    (s.clip = none →
      (exec s (.saveLayerAlpha ⟨l, t, r, b⟩ alpha false)).transform = s.transform ∧
      (exec s (.saveLayerAlpha ⟨l, t, r, b⟩ alpha false)).clip = s.clip) ∧
    ((run 200 200 [.save true true, .clipRectCmd ⟨10, 20, 190, 180⟩ .intersect,
        .saveLayerAlpha ⟨10, 20, 190, 180⟩ 128 false,
        .drawRect ⟨10, 20, 190, 180⟩ ⟨1, 0⟩, .restore, .restore]).ops.length = 3 ∧
      ((run 200 200 [.save true true, .clipRectCmd ⟨10, 20, 190, 180⟩ .intersect,
        .saveLayerAlpha ⟨10, 20, 190, 180⟩ 128 false,
        .drawRect ⟨10, 20, 190, 180⟩ ⟨1, 0⟩, .restore, .restore]).ops.getD 0
          dOp).opId = .BeginLayerOp) ∧
    ((run 200 200 [.saveLayerAlpha ⟨10, 20, 190, 180⟩ 128 false,
        .drawRect ⟨10, 20, 190, 180⟩ ⟨1, 0⟩, .restore]).ops.length = 3 ∧
      ((run 200 200 [.saveLayerAlpha ⟨10, 20, 190, 180⟩ 128 false,
        .drawRect ⟨10, 20, 190, 180⟩ ⟨1, 0⟩, .restore]).ops.getD 0 dOp).opId =
          .BeginUnclippedLayerOp ∧
      ((run 200 200 [.saveLayerAlpha ⟨10, 20, 190, 180⟩ 128 false,
        .drawRect ⟨10, 20, 190, 180⟩ ⟨1, 0⟩, .restore]).ops.getD 0 dOp).localClip =
          none ∧
      ((run 200 200 [.saveLayerAlpha ⟨10, 20, 190, 180⟩ 128 false,
        .drawRect ⟨10, 20, 190, 180⟩ ⟨1, 0⟩, .restore]).ops.getD 1 dOp).opId =
          .RectOp ∧
      ((run 200 200 [.saveLayerAlpha ⟨10, 20, 190, 180⟩ 128 false,
        .drawRect ⟨10, 20, 190, 180⟩ ⟨1, 0⟩, .restore]).ops.getD 1 dOp).localClip =
          none ∧
      ((run 200 200 [.saveLayerAlpha ⟨10, 20, 190, 180⟩ 128 false,
        .drawRect ⟨10, 20, 190, 180⟩ ⟨1, 0⟩, .restore]).ops.getD 1 dOp).localMatrix =
          Mat.identity ∧
      ((run 200 200 [.saveLayerAlpha ⟨10, 20, 190, 180⟩ 128 false,
        .drawRect ⟨10, 20, 190, 180⟩ ⟨1, 0⟩, .restore]).ops.getD 2 dOp).opId =
          .EndUnclippedLayerOp) := by
  refine ⟨?_, ?_, ?_, ?_⟩
  · cases hsc : s.clip with
    | none =>
      refine ⟨⟨.BeginUnclippedLayerOp, ⟨l, t, r, b⟩, Mat.identity, none, none,
        [], none⟩, ?_, rfl, rfl⟩
      show (execSaveLayer s ⟨l, t, r, b⟩ false).ops = _
      rw [execSaveLayer_of_none s _ hsc]
      show (addOp s _).ops = _
      rw [addOp_ops]
    | some c =>
      refine ⟨⟨.BeginLayerOp, ⟨l, t, r, b⟩, Mat.identity, none, none, [],
        none⟩, ?_, by rw [if_neg (fun hx => Option.noConfusion hx)], rfl⟩
      show (execSaveLayer s ⟨l, t, r, b⟩ false).ops = _
      exact execSaveLayer_ops_clipped s _ false (by rw [hsc]; rfl)
  · intro hsc
    constructor
    · show (execSaveLayer s ⟨l, t, r, b⟩ false).transform = s.transform
      rw [execSaveLayer_of_none s _ hsc]
      show (addOp s _).transform = _
      rw [addOp_transform]
    · show (execSaveLayer s ⟨l, t, r, b⟩ false).clip = s.clip
      rw [execSaveLayer_of_none s _ hsc]
      show (addOp s _).clip = _
      rw [addOp_clip]
  · constructor
    · norm_num [run, exec, execDrawRect, execClipRect, execSaveLayer, refPaint,
        addOp, RState.init, finalize, closeChunk, restoreStep, Mat.mapRect,
        Mat.applyX, Mat.applyY, min4, max4, Mat.identity, Mat.inverse, Mat.det,
        Mat.loadTranslate, RState.viewport, RectQ.intersect, RectQ.translated]
    · norm_num [run, exec, execDrawRect, execClipRect, execSaveLayer, refPaint,
        addOp, RState.init, finalize, closeChunk, restoreStep, Mat.mapRect,
        Mat.applyX, Mat.applyY, min4, max4, Mat.identity, Mat.inverse, Mat.det,
        Mat.loadTranslate, RState.viewport, RectQ.intersect, RectQ.translated]
  · refine ⟨?_, ?_, ?_, ?_, ?_, ?_, ?_⟩ <;>
      norm_num [run, exec, execDrawRect, execSaveLayer, refPaint, addOp,
        RState.init, finalize, closeChunk, restoreStep, Mat.identity]

/-! ### Rectangle and matrix algebra for the layer-clip computation -/

theorem RectQ.eq_of_fields (a b : RectQ) (h1 : a.left = b.left)
    (h2 : a.top = b.top) (h3 : a.right = b.right) (h4 : a.bottom = b.bottom) :
    a = b := by
  cases a
  cases b
  simp_all

theorem min_quad (a b : ℚ) : min (min (min a b) a) b = min a b := by
  rw [min_comm (min a b) a, ← min_assoc, min_self, min_assoc, min_self]

theorem min_quad2 (a b : ℚ) : min (min (min a a) b) b = min a b := by
  rw [min_self, min_assoc, min_self]

theorem max_quad (a b : ℚ) : max (max (max a b) a) b = max a b := by
  rw [max_comm (max a b) a, ← max_assoc, max_self, max_assoc, max_self]

theorem max_quad2 (a b : ℚ) : max (max (max a a) b) b = max a b := by
  rw [max_self, max_assoc, max_self]

theorem identity_applyX (x y : ℚ) : Mat.identity.applyX x y = x := by
  unfold Mat.applyX Mat.identity
  ring

theorem identity_applyY (x y : ℚ) : Mat.identity.applyY x y = y := by
  unfold Mat.applyY Mat.identity
  ring

theorem mapRect_identity (r : RectQ) :
    Mat.identity.mapRect r =
      ⟨min r.left r.right, min r.top r.bottom,
       max r.left r.right, max r.top r.bottom⟩ := by
  unfold Mat.mapRect
  refine RectQ.eq_of_fields _ _ ?_ ?_ ?_ ?_ <;>
    dsimp only <;>
    simp only [identity_applyX, identity_applyY, min4, max4]
  · exact min_quad _ _
  · exact min_quad2 _ _
  · exact max_quad _ _
  · exact max_quad2 _ _

theorem mapRect_identity_of_ordered (r : RectQ) (hr : r.ordered) :
    Mat.identity.mapRect r = r := by
  rw [mapRect_identity]
  exact RectQ.eq_of_fields _ _ (min_eq_left hr.1) (min_eq_left hr.2)
    (max_eq_right hr.1) (max_eq_right hr.2)

theorem inverse_identity : Mat.identity.inverse = Mat.identity := by
  unfold Mat.inverse Mat.det Mat.identity
  norm_num

theorem intersect_comm (a b : RectQ) : a.intersect b = b.intersect a := by
  unfold RectQ.intersect
  exact RectQ.eq_of_fields _ _ (max_comm _ _) (max_comm _ _)
    (min_comm _ _) (min_comm _ _)

/-- Intersecting with a rectangle already in the intersection is absorbed. -/
theorem intersect_absorb (a v : RectQ) :
    (a.intersect v).intersect a = v.intersect a := by
  unfold RectQ.intersect
  refine RectQ.eq_of_fields _ _ ?_ ?_ ?_ ?_ <;> dsimp only
  · rw [max_comm a.left v.left, max_assoc, max_self]
  · rw [max_comm a.top v.top, max_assoc, max_self]
  · rw [min_comm a.right v.right, min_assoc, min_self]
  · rw [min_comm a.bottom v.bottom, min_assoc, min_self]

/-- Duplicate outer factor in a nested intersection collapses. -/
theorem intersect_dup (v rc : RectQ) :
    v.intersect (v.intersect rc) = v.intersect rc := by
  unfold RectQ.intersect
  refine RectQ.eq_of_fields _ _ ?_ ?_ ?_ ?_ <;> dsimp only
  · rw [← max_assoc, max_self]
  · rw [← max_assoc, max_self]
  · rw [← min_assoc, min_self]
  · rw [← min_assoc, min_self]

theorem ordered_of_comm (a b : RectQ) (h : (a.intersect b).ordered) :
    (b.intersect a).ordered := by
  rw [intersect_comm]
  exact h

/-! ### Clipped saveLayer: field characterization -/

/-- The ambient effective clip of a state, as a rectangle: viewport bounds
intersected with the tracked clip shape when one is active. -/
def ambientRect (s : RState) : RectQ :=
  match s.clip with
  | some c => s.viewport.intersect c.rect
  | none => s.viewport

theorem execSaveLayer_transform_true (s : RState) (rq : RectQ) :
    (execSaveLayer s rq true).transform =
      Mat.loadTranslate (-rq.left) (-rq.top) := by
  unfold execSaveLayer
  rw [if_pos (show (true || s.clip.isSome) = true from rfl)]

theorem execSaveLayer_saveStack_true (s : RState) (rq : RectQ) :
    (execSaveLayer s rq true).saveStack =
      ⟨s.transform, s.clip, true, true, .clippedLayer⟩ :: s.saveStack := by
  unfold execSaveLayer
  rw [if_pos (show (true || s.clip.isSome) = true from rfl)]
  show _ :: (addOp s _).saveStack = _
  rw [addOp_saveStack]

theorem execSaveLayer_clip_true (s : RState) (rq : RectQ) :
    (execSaveLayer s rq true).clip = some ⟨s.nextClipId, .rectangle,
      ((s.transform.inverse.mapRect
        ((s.transform.mapRect rq).intersect (ambientRect s))).intersect
        rq).translated (-rq.left) (-rq.top)⟩ := by
  unfold execSaveLayer ambientRect
  rw [if_pos (show (true || s.clip.isSome) = true from rfl)]
  dsimp only
  rw [addOp_nextClipId]

theorem intersect_idem_right (a b : RectQ) :
    (a.intersect b).intersect b = a.intersect b := by
  unfold RectQ.intersect
  refine RectQ.eq_of_fields _ _ ?_ ?_ ?_ ?_ <;> dsimp only
  · rw [max_assoc, max_self]
  · rw [max_assoc, max_self]
  · rw [min_assoc, min_self]
  · rw [min_assoc, min_self]

/-- Value of the child clip installed by a clipped `saveLayerAlpha` when the
ambient transform is the identity: the ambient effective clip cropped to the
layer bounds, translated to layer-local coordinates. -/
theorem execSaveLayer_clip_true_identity (s : RState) (rq : RectQ)
    (ht : s.transform = Mat.identity) (hrq : rq.ordered)
    (hord : ((ambientRect s).intersect rq).ordered) :
    (execSaveLayer s rq true).clip = some ⟨s.nextClipId, .rectangle,
      ((ambientRect s).intersect rq).translated (-rq.left) (-rq.top)⟩ := by
  rw [execSaveLayer_clip_true, ht, inverse_identity,
    mapRect_identity_of_ordered rq hrq, intersect_comm rq (ambientRect s),
    mapRect_identity_of_ordered _ hord, intersect_idem_right]

theorem restoreStep_ops_clippedLayer (s : RState) (f : Frame) (rest : List Frame)
    (hst : s.saveStack = f :: rest) (hk : f.kind = .clippedLayer) :
    (restoreStep s).ops = s.ops ++
      [⟨.EndLayerOp, ⟨0, 0, 0, 0⟩, s.transform, s.clip, none, [], none⟩] := by
  unfold restoreStep
  split
  · next heq =>
    rw [hst] at heq
    cases heq
  · next f2 rest2 heq =>
    rw [hst] at heq
    injection heq with h1 h2
    subst h1
    subst h2
    rw [hk]
    show (addOp s _).ops = _
    rw [addOp_ops]

/-- Running a block of `drawRect` commands leaves the transform, clip and save
stack untouched and appends one RectOp per draw, each carrying the bounds of
its call, the block-entry transform as `localMatrix` and the block-entry clip
reference as `localClip`. -/
theorem foldl_drawRects (cs : List (RectQ × PaintQ)) (s : RState) :
    ((cs.map fun x => Cmd.drawRect x.1 x.2).foldl exec s).transform = s.transform ∧
    ((cs.map fun x => Cmd.drawRect x.1 x.2).foldl exec s).clip = s.clip ∧
    ((cs.map fun x => Cmd.drawRect x.1 x.2).foldl exec s).saveStack = s.saveStack ∧
    ∃ newOps : List ROp,
      ((cs.map fun x => Cmd.drawRect x.1 x.2).foldl exec s).ops = s.ops ++ newOps ∧
      newOps.length = cs.length ∧
      ∀ k : ℕ, k < cs.length →
        (newOps.getD k dOp).opId = .RectOp ∧
        (newOps.getD k dOp).unmappedBounds = (cs.getD k (⟨0, 0, 0, 0⟩, ⟨0, 0⟩)).1 ∧
        (newOps.getD k dOp).localMatrix = s.transform ∧
        (newOps.getD k dOp).localClip = s.clip := by
  induction cs generalizing s with
  | nil =>
    refine ⟨rfl, rfl, rfl, [], by simp, rfl, ?_⟩
    intro k hk
    exact absurd hk (Nat.not_lt_zero k)
  | cons cp cs ih =>
    simp only [List.map_cons, List.foldl_cons]
    obtain ⟨iht, ihc, ihs, newOps, ihops, ihlen, ihk⟩ :=
      ih (exec s (.drawRect cp.1 cp.2))
    have ht' : (exec s (.drawRect cp.1 cp.2)).transform = s.transform :=
      execDrawRect_transform s cp.1 cp.2
    have hc' : (exec s (.drawRect cp.1 cp.2)).clip = s.clip :=
      execDrawRect_clip s cp.1 cp.2
    have hs' : (exec s (.drawRect cp.1 cp.2)).saveStack = s.saveStack := by
      show (addOp (refPaint s cp.2).2 _).saveStack = _
      rw [addOp_saveStack, refPaint_saveStack]
    have hops' : (exec s (.drawRect cp.1 cp.2)).ops = s.ops ++
        [⟨.RectOp, cp.1, s.transform, s.clip, some (refPaint s cp.2).1, [], none⟩] :=
      execDrawRect_ops s cp.1 cp.2
    refine ⟨iht.trans ht', ihc.trans hc', ihs.trans hs',
      ⟨.RectOp, cp.1, s.transform, s.clip, some (refPaint s cp.2).1, [], none⟩ ::
        newOps, ?_, ?_, ?_⟩
    · rw [ihops, hops', List.append_assoc]
      rfl
    · simp [ihlen]
    · intro k hk
      cases k with
      | zero =>
        refine ⟨rfl, ?_, rfl, rfl⟩
        rw [List.getD_cons_zero, List.getD_cons_zero]
      | succ k2 =>
        rw [List.getD_cons_succ, List.getD_cons_succ]
        have hk2 : k2 < cs.length := by
          simpa using Nat.lt_of_succ_lt_succ hk
        obtain ⟨g1, g2, g3, g4⟩ := ihk k2 hk2
        exact ⟨g1, g2, g3.trans ht', g4.trans hc'⟩

theorem execClipRect_transform (s : RState) (r : RectQ) (cop : ClipOp) :
    (execClipRect s r cop).transform = s.transform := by
  unfold execClipRect
  dsimp only
  repeat' split
  all_goals rfl

theorem execClipRect_ops (s : RState) (r : RectQ) (cop : ClipOp) :
    (execClipRect s r cop).ops = s.ops := by
  unfold execClipRect
  dsimp only
  repeat' split
  all_goals rfl

theorem execClipRect_saveStack (s : RState) (r : RectQ) (cop : ClipOp) :
    (execClipRect s r cop).saveStack = s.saveStack := by
  unfold execClipRect
  dsimp only
  repeat' split
  all_goals rfl

theorem execClipRect_width (s : RState) (r : RectQ) (cop : ClipOp) :
    (execClipRect s r cop).width = s.width := by
  unfold execClipRect
  dsimp only
  repeat' split
  all_goals rfl

theorem execClipRect_height (s : RState) (r : RectQ) (cop : ClipOp) :
    (execClipRect s r cop).height = s.height := by
  unfold execClipRect
  dsimp only
  repeat' split
  all_goals rfl

theorem execClipRect_of_none (s : RState) (r : RectQ) (cop : ClipOp)
    (h : s.clip = none) :
    execClipRect s r cop = { s with
      clip := some ⟨s.nextClipId, .rectangle,
        match cop with
        | .intersect => s.viewport.intersect (s.transform.mapRect r)
        | .replace => s.transform.mapRect r⟩,
      nextClipId := s.nextClipId + 1 } := by
  unfold execClipRect
  rw [h]

/-- The clip-prefix commands of a layer scenario: nothing, or one `clipRect`. -/
def preCmdsOf (pre : Option (RectQ × ClipOp)) : List Cmd :=
  match pre with
  | none => []
  | some (rc, cop) => [.clipRectCmd rc cop]

/-- The specification's "ambient (pre-layer) clip" of a layer scenario: the
full canvas when no clip was set, else the canvas bounds intersected with the
clip rectangle. -/
def ambientOf (w h : ℚ) (pre : Option (RectQ × ClipOp)) : RectQ :=
  match pre with
  | none => ⟨0, 0, w, h⟩
  | some (rc, _) => RectQ.intersect ⟨0, 0, w, h⟩ rc

/-- One clipped-layer recording: optional clip, `saveLayerAlpha` with the
clip-to-layer flag, a block of child `drawRect` calls, and the matching
restore. -/
def layerScenario (pre : Option (RectQ × ClipOp)) (lb : RectQ) (alpha : ℕ)
    (children : List (RectQ × PaintQ)) : List Cmd :=
  preCmdsOf pre ++ [.saveLayerAlpha lb alpha true] ++
    (children.map fun x => Cmd.drawRect x.1 x.2) ++ [.restore]

theorem pre_state_facts (w h : ℚ) (pre : Option (RectQ × ClipOp))
    (hpre : ∀ rc cop, pre = some (rc, cop) → rc.ordered) :
    ((preCmdsOf pre).foldl exec (RState.init w h)).transform = Mat.identity ∧
    ((preCmdsOf pre).foldl exec (RState.init w h)).ops = [] ∧
    ((preCmdsOf pre).foldl exec (RState.init w h)).saveStack = [] ∧
    ambientRect ((preCmdsOf pre).foldl exec (RState.init w h)) =
      ambientOf w h pre := by
  cases pre with
  | none => exact ⟨rfl, rfl, rfl, rfl⟩
  | some rcop =>
    obtain ⟨rc, cop⟩ := rcop
    have hrc : rc.ordered := hpre rc cop rfl
    have hfold : (preCmdsOf (some (rc, cop))).foldl exec (RState.init w h) =
        execClipRect (RState.init w h) rc cop := rfl
    rw [hfold]
    refine ⟨execClipRect_transform _ _ _, execClipRect_ops _ _ _,
      execClipRect_saveStack _ _ _, ?_⟩
    rw [execClipRect_of_none (RState.init w h) rc cop rfl]
    show (⟨0, 0, w, h⟩ : RectQ).intersect _ = _
    cases cop
    · show (⟨0, 0, w, h⟩ : RectQ).intersect
        ((⟨0, 0, w, h⟩ : RectQ).intersect (Mat.identity.mapRect rc)) = _
      rw [mapRect_identity_of_ordered rc hrc, intersect_dup]
      rfl
    · show (⟨0, 0, w, h⟩ : RectQ).intersect (Mat.identity.mapRect rc) = _
      rw [mapRect_identity_of_ordered rc hrc]
      rfl

/-- C2: a clip-to-layer `saveLayerAlpha` bracketed by a matching restore
records exactly `BeginLayerOp` (requested bounds, identity matrix, null clip),
the child ops, then `EndLayerOp`.  Every child RectOp carries its own call
bounds, a `localMatrix` that is the pure translation by the negative of the
layer origin, and a `localClip` that is the shared rectangle clip object
holding the ambient (pre-layer) effective clip intersected with the declared
layer bounds, expressed in layer-local coordinates — also when the requested
layer bounds exceed the ambient clip. -/
theorem saveLayer_clipped_structure (w h : ℚ) (pre : Option (RectQ × ClipOp))
    (lb : RectQ) (alpha : ℕ) (c0 : RectQ × PaintQ) (cs : List (RectQ × PaintQ))
    (hlb : lb.ordered)
    (hpre : ∀ rc cop, pre = some (rc, cop) → rc.ordered)
    (hcrop : ((ambientOf w h pre).intersect lb).ordered) :
    (run w h (layerScenario pre lb alpha (c0 :: cs))).ops.length = cs.length + 3 ∧
    (run w h (layerScenario pre lb alpha (c0 :: cs))).ops.getD 0 dOp =
      ⟨.BeginLayerOp, lb, Mat.identity, none, none, [], none⟩ ∧
    ((run w h (layerScenario pre lb alpha (c0 :: cs))).ops.getD
      (cs.length + 2) dOp).opId = .EndLayerOp ∧
    ∀ k : ℕ, k < cs.length + 1 →
      ((run w h (layerScenario pre lb alpha (c0 :: cs))).ops.getD
        (k + 1) dOp).opId = .RectOp ∧
      ((run w h (layerScenario pre lb alpha (c0 :: cs))).ops.getD
        (k + 1) dOp).unmappedBounds = ((c0 :: cs).getD k (⟨0, 0, 0, 0⟩, ⟨0, 0⟩)).1 ∧
      ((run w h (layerScenario pre lb alpha (c0 :: cs))).ops.getD
        (k + 1) dOp).localMatrix = Mat.loadTranslate (-lb.left) (-lb.top) ∧
      ∃ ob : ClipObj,
        ((run w h (layerScenario pre lb alpha (c0 :: cs))).ops.getD
          (k + 1) dOp).localClip = some ob ∧
        ob.mode = .rectangle ∧
        ob.rect = ((ambientOf w h pre).intersect lb).translated
          (-lb.left) (-lb.top) := by
  obtain ⟨ht1, hops1, hstack1, hamb⟩ := pre_state_facts w h pre hpre
  have hcrop1 : ((ambientRect ((preCmdsOf pre).foldl exec
      (RState.init w h))).intersect lb).ordered := by
    rw [hamb]
    exact hcrop
  set S1 := (preCmdsOf pre).foldl exec (RState.init w h) with hS1
  have hops2 : (execSaveLayer S1 lb true).ops = S1.ops ++
      [⟨.BeginLayerOp, lb, Mat.identity, none, none, [], none⟩] :=
    execSaveLayer_ops_clipped S1 lb true rfl
  have htrans2 := execSaveLayer_transform_true S1 lb
  have hclip2 := execSaveLayer_clip_true_identity S1 lb ht1 hlb hcrop1
  have hstack2 := execSaveLayer_saveStack_true S1 lb
  obtain ⟨ht3, hc3, hs3, newOps, hops3, hlen3, hk3⟩ :=
    foldl_drawRects (c0 :: cs) (execSaveLayer S1 lb true)
  set S3 := ((c0 :: cs).map fun x => Cmd.drawRect x.1 x.2).foldl exec
    (execSaveLayer S1 lb true) with hS3
  have hst3 : S3.saveStack =
      (⟨S1.transform, S1.clip, true, true, .clippedLayer⟩ : Frame) :: [] := by
    rw [hs3, hstack2, hstack1]
  have hops4 := restoreStep_ops_clippedLayer S3 _ [] hst3 rfl
  have hrun : (layerScenario pre lb alpha (c0 :: cs)).foldl exec
      (RState.init w h) = restoreStep S3 := by
    unfold layerScenario
    rw [List.foldl_append, List.foldl_append, List.foldl_append]
    rfl
  have hs4stack : (restoreStep S3).saveStack = [] := by
    rw [restoreStep_saveStack, hst3]
    rfl
  have hfin : (run w h (layerScenario pre lb alpha (c0 :: cs))).ops =
      (restoreStep S3).ops := by
    show (finalize ((layerScenario pre lb alpha (c0 :: cs)).foldl exec
      (RState.init w h))).ops = _
    rw [hrun]
    show (closeChunk (restoreStep^[(restoreStep S3).saveStack.length]
      (restoreStep S3))).ops = _
    rw [hs4stack]
    simp only [List.length_nil, Function.iterate_zero_apply]
    rw [closeChunk_ops]
  have hall : (run w h (layerScenario pre lb alpha (c0 :: cs))).ops =
      (⟨.BeginLayerOp, lb, Mat.identity, none, none, [], none⟩ : ROp) ::
        (newOps ++ [⟨.EndLayerOp, ⟨0, 0, 0, 0⟩, S3.transform, S3.clip,
          none, [], none⟩]) := by
    rw [hfin, hops4, hops3, hops2, hops1]
    simp
  have hlen3' : newOps.length = cs.length + 1 := by
    rw [hlen3]
    rfl
  refine ⟨?_, ?_, ?_, ?_⟩
  · rw [hall]
    simp only [List.length_cons, List.length_append, List.length_nil, hlen3']
  · rw [hall, List.getD_cons_zero]
  · rw [hall, List.getD_cons_succ,
      List.getD_append_right _ _ _ _ (le_of_eq hlen3')]
    rw [hlen3', Nat.sub_self]
    rfl
  · intro k hk
    have hklt : k < newOps.length := by
      rw [hlen3']
      exact hk
    rw [hall]
    rw [List.getD_cons_succ, List.getD_append _ _ _ _ hklt]
    obtain ⟨g1, g2, g3, g4⟩ := hk3 k (by rw [List.length_cons]; exact hk)
    refine ⟨g1, g2, ?_, ?_⟩
    · rw [g3, htrans2]
    · rw [g4, hclip2]
      refine ⟨_, rfl, rfl, ?_⟩
      show ((ambientRect S1).intersect lb).translated (-lb.left) (-lb.top) = _
      rw [hamb]

/-- Witness for C2 at the viewport-crop test input: canvas 200×200, replace
clip (−1000,−1000,1000,1000), layer bounds (100,100,300,300) larger than the
canvas, one child draw. -/
theorem saveLayer_clipped_structure_witness :
    RectQ.ordered ⟨100, 100, 300, 300⟩ ∧
    (∀ rc cop, (some (⟨-1000, -1000, 1000, 1000⟩, ClipOp.replace) :
        Option (RectQ × ClipOp)) = some (rc, cop) → rc.ordered) ∧
    ((ambientOf 200 200 (some (⟨-1000, -1000, 1000, 1000⟩,
      ClipOp.replace))).intersect ⟨100, 100, 300, 300⟩).ordered ∧
    (run 200 200 (layerScenario (some (⟨-1000, -1000, 1000, 1000⟩,
      ClipOp.replace)) ⟨100, 100, 300, 300⟩ 128
      [(⟨0, 0, 400, 400⟩, ⟨1, 0⟩)])).ops.length = 0 + 3 := by
  have h1 : RectQ.ordered ⟨100, 100, 300, 300⟩ := by
    norm_num [RectQ.ordered]
  have h2 : ∀ rc cop, (some (⟨-1000, -1000, 1000, 1000⟩, ClipOp.replace) :
      Option (RectQ × ClipOp)) = some (rc, cop) → rc.ordered := by
    intro rc cop hh
    injection hh with hpair
    injection hpair with hrc hcop
    rw [← hrc]
    norm_num [RectQ.ordered]
  have h3 : ((ambientOf 200 200 (some (⟨-1000, -1000, 1000, 1000⟩,
      ClipOp.replace))).intersect ⟨100, 100, 300, 300⟩).ordered := by
    norm_num [ambientOf, RectQ.intersect, RectQ.ordered]
  exact ⟨h1, h2, h3, (saveLayer_clipped_structure 200 200
    (some (⟨-1000, -1000, 1000, 1000⟩, ClipOp.replace)) ⟨100, 100, 300, 300⟩
    128 (⟨0, 0, 400, 400⟩, ⟨1, 0⟩) [] h1 h2 h3).1⟩

/-! ### Layer isolation under ambient rotation -/

/-- C5 (counterexample): entering a clip-to-layer `saveLayerAlpha` under an
ambient rotation/translation (unit rotation (3/5, 4/5)) whose layer bounds are
cropped by the rotated ambient viewport records the child clip as a *simple
rectangle* clip object — mode `Rectangle`, not a general polygon/region clip —
even though the crop is a proper sub-rectangle of the layer box, contradicting
the claim's "recorded as a general polygon/region clip, not a simple
rectangle". -/
theorem rotated_layer_clip_rectangle_not_region :
    ∃ ob : ClipObj,
      ((run 200 200 [.save true true, .translate 100 100,
        .rotate (3 / 5) (4 / 5), .translate (-200) (-200),
        .saveLayerAlpha ⟨0, 0, 400, 400⟩ 128 true,
        .drawRect ⟨0, 0, 400, 400⟩ ⟨1, 0⟩, .restore,
        .restore]).ops.getD 1 dOp).localClip = some ob ∧
      ob.rect = ⟨60, 60, 340, 340⟩ ∧
      ob.rect ≠ ⟨0, 0, 400, 400⟩ ∧
      ob.mode = ClipMode.rectangle ∧
      ob.mode ≠ ClipMode.region := by
  have hclip : ((run 200 200 [.save true true, .translate 100 100,
      .rotate (3 / 5) (4 / 5), .translate (-200) (-200),
      .saveLayerAlpha ⟨0, 0, 400, 400⟩ 128 true,
      .drawRect ⟨0, 0, 400, 400⟩ ⟨1, 0⟩, .restore,
      .restore]).ops.getD 1 dOp).localClip =
      some ⟨0, ClipMode.rectangle, ⟨60, 60, 340, 340⟩⟩ := by
    norm_num [run, exec, execDrawRect, execSaveLayer, refPaint, addOp,
      RState.init, finalize, closeChunk, restoreStep, Mat.mapRect, Mat.applyX,
      Mat.applyY, min4, max4, Mat.identity, Mat.inverse, Mat.det, Mat.mul,
      Mat.loadTranslate, Mat.rotCS, RState.viewport, RectQ.intersect,
      RectQ.translated]
  refine ⟨⟨0, ClipMode.rectangle, ⟨60, 60, 340, 340⟩⟩, hclip, rfl, ?_, rfl, ?_⟩
  · intro hcon
    have := congrArg RectQ.left hcon
    norm_num at this
  · intro hcon
    cases hcon

/-- C5 (amended): the ambient canvas transform never leaks into a clipped
layer's local space — from any state, the first op drawn inside a fresh
clip-to-layer scope records `localMatrix` equal to the pure translation by the
negative of the layer origin, and its `localClip` is a rectangle-mode clip
object.  Concretely, under translate/rotate(3/5,4/5)/translate: a layer that
stays inside the rotated viewport sees the identity matrix and the full layer
box (0,0,100,100) as clip; a layer cropped by the viewport sees the identity
matrix and the simple rectangle (60,60,340,340) — the layer-space bounding box
of the viewport-cropped bounds — never a region clip. -/
theorem layer_isolation_rotation (s : RState) (lb : RectQ) (alpha : ℕ)
    (rb : RectQ) (p : PaintQ) :
    (∃ bop rop : ROp,
      (exec (exec s (.saveLayerAlpha lb alpha true)) (.drawRect rb p)).ops =
        s.ops ++ [bop, rop] ∧
      rop.localMatrix = Mat.loadTranslate (-lb.left) (-lb.top) ∧
      ∃ ob : ClipObj, rop.localClip = some ob ∧ ob.mode = .rectangle) ∧
    (((run 200 200 [.save true true, .translate 100 100,
        .rotate (3 / 5) (4 / 5), .translate (-50) (-50),
        .saveLayerAlpha ⟨0, 0, 100, 100⟩ 128 true,
        .drawRect ⟨0, 0, 100, 100⟩ ⟨1, 0⟩, .restore,
        .restore]).ops.getD 1 dOp).localMatrix = Mat.identity ∧
      ((run 200 200 [.save true true, .translate 100 100,
        .rotate (3 / 5) (4 / 5), .translate (-50) (-50),
        .saveLayerAlpha ⟨0, 0, 100, 100⟩ 128 true,
        .drawRect ⟨0, 0, 100, 100⟩ ⟨1, 0⟩, .restore,
        .restore]).ops.getD 1 dOp).localClip =
        some ⟨0, ClipMode.rectangle, ⟨0, 0, 100, 100⟩⟩) ∧
    (((run 200 200 [.save true true, .translate 100 100,
        .rotate (3 / 5) (4 / 5), .translate (-200) (-200),
        .saveLayerAlpha ⟨0, 0, 400, 400⟩ 128 true,
        .drawRect ⟨0, 0, 400, 400⟩ ⟨1, 0⟩, .restore,
        .restore]).ops.getD 1 dOp).localMatrix = Mat.identity ∧
      ((run 200 200 [.save true true, .translate 100 100,
        .rotate (3 / 5) (4 / 5), .translate (-200) (-200),
        .saveLayerAlpha ⟨0, 0, 400, 400⟩ 128 true,
        .drawRect ⟨0, 0, 400, 400⟩ ⟨1, 0⟩, .restore,
        .restore]).ops.getD 1 dOp).localClip =
        some ⟨0, ClipMode.rectangle, ⟨60, 60, 340, 340⟩⟩) := by
  refine ⟨?_, ⟨?_, ?_⟩, ⟨?_, ?_⟩⟩
  · refine ⟨⟨.BeginLayerOp, lb, Mat.identity, none, none, [], none⟩,
      ⟨.RectOp, rb, (execSaveLayer s lb true).transform,
        (execSaveLayer s lb true).clip,
        some (refPaint (execSaveLayer s lb true) p).1, [], none⟩, ?_, ?_, ?_⟩
    · show (execDrawRect (execSaveLayer s lb true) rb p).ops = _
      rw [execDrawRect_ops, execSaveLayer_ops_clipped s lb true rfl,
        List.append_assoc]
      rfl
    · show (execSaveLayer s lb true).transform = _
      rw [execSaveLayer_transform_true]
    · show ∃ ob, (execSaveLayer s lb true).clip = some ob ∧ ob.mode = .rectangle
      rw [execSaveLayer_clip_true]
      exact ⟨_, rfl, rfl⟩
  all_goals
    norm_num [run, exec, execDrawRect, execSaveLayer, refPaint, addOp,
      RState.init, finalize, closeChunk, restoreStep, Mat.mapRect, Mat.applyX,
      Mat.applyY, min4, max4, Mat.identity, Mat.inverse, Mat.det, Mat.mul,
      Mat.loadTranslate, Mat.rotCS, RState.viewport, RectQ.intersect,
      RectQ.translated]

end HwuiRec
